import Mathlib

/-!
# Verification of `openclaw-guardian` — `src/layer2-audit/health_fetcher.py`

A shallow embedding of the core of `health_fetcher.py`: the incident
classifier and sticky-severity aggregator (`parse_llm_status` with its inner
closures `apply`, `record_last`, `apply_incident`), the severity lattice
(`_worse_status`), the duration parser (`_parse_hms_duration`,
`_reset_after_from_text`) and the restart merger (`analyze_restarts`).

Modelling conventions:
* UTC instants and durations are `Int` microseconds (Python `datetime` /
  `timedelta` have microsecond resolution; comparisons and arithmetic on
  them are exact).
* Python strings are Lean `String`s.  Python's default `str.strip` /
  `str.lstrip` whitespace set and `str.lower` are modelled over their ASCII
  core (the source's patterns, statuses and markers only exercise ASCII
  whitespace and ASCII case folding).
* Python regular expressions are transcribed as hand-written searchers over
  `List Char`, each documented with the regex it embeds, with Python's
  leftmost-match and greedy semantics.
* `re` character classes `\w`, `\d`, `\s` are modelled by their ASCII
  cores (Python also accepts non-ASCII word/digit/space characters there;
  no log markers in the source rely on that).
* Timezone rendering (`_fmt_local` over a `tzinfo`) is out-of-scope glue
  per the spec; it enters the core only as an opaque formatter
  `tzFmt : Int → String` supplied by the caller.
-/

namespace HealthFetcher

/-! ## Python string primitives -/

/-- ASCII core of Python's default whitespace set used by `str.strip` and
`str.lstrip`. -/
def pyIsSpace (c : Char) : Bool :=
  c == ' ' || c == '\t' || c == '\n' || c == '\r' || c == '\x0b' || c == '\x0c'

/-- Python `s.lstrip()` (ASCII whitespace core). -/
def pyLstrip (s : String) : String :=
  ⟨s.data.dropWhile pyIsSpace⟩

/-- Python `s.strip()` (ASCII whitespace core). -/
def pyStrip (s : String) : String :=
  ⟨((s.data.dropWhile pyIsSpace).reverse.dropWhile pyIsSpace).reverse⟩

/-- Python `s.lower()` (ASCII case folding core). -/
def pyLower (s : String) : String :=
  ⟨s.data.map Char.toLower⟩

/-- Python `pat in hay` (substring containment). -/
def listHasInfix (pat cs : List Char) : Bool :=
  (List.range (cs.length + 1)).any (fun i => pat.isPrefixOf (cs.drop i))

/-- Python `pat in hay` on strings. -/
def pyContains (hay pat : String) : Bool :=
  listHasInfix pat.data hay.data

/-- Python `s.startswith(pre)`. -/
def pyStartsWith (s pre : String) : Bool :=
  pre.data.isPrefixOf s.data

/-- Python `s.split(sep)` for a one-character separator (splits on every
occurrence, keeping empty fields). -/
def pySplitChar (c : Char) (cs : List Char) : List (List Char) :=
  match cs with
  | [] => [[]]
  | x :: rest =>
    let r := pySplitChar c rest
    if x == c then [] :: r
    else match r with
      | [] => [[x]]
      | h :: t => (x :: h) :: t

/-- Python `s.split(sep, 1)`: the part before the first occurrence of `c`
and the part after it (caller must know `c` occurs). -/
def pySplitFirst (c : Char) (cs : List Char) : List Char × List Char :=
  (cs.takeWhile (fun x => x != c), (cs.dropWhile (fun x => x != c)).drop 1)

/-- Python `l[-n:]`: the last `n` elements (whole list when shorter). -/
def pyLastN {α : Type} (n : Nat) (l : List α) : List α :=
  l.drop (l.length - n)

/-! ## Severity lattice: `_worse_status` (source lines 225-230) -/

/-- The rank `order.get(s.lstrip()[:1], 0)` from `_worse_status`:
red = 3, yellow = 2, green = 1, anything else 0. -/
def statusOrder (s : String) : Nat :=
  match (s.data.dropWhile pyIsSpace).take 1 with
  | ['🔴'] => 3
  | ['🟡'] => 2
  | ['🟢'] => 1
  | _ => 0

/-- `_worse_status(a, b)`: `a if order.get(ea, 0) >= order.get(eb, 0) else b`. -/
def worse_status (a b : String) : String :=
  if statusOrder b ≤ statusOrder a then a else b

/-! ## Positional helpers for the transcribed regular expressions -/

/-- Python `\d` (ASCII core). -/
def isAsciiDigit (c : Char) : Bool :=
  '0' ≤ c && c ≤ '9'

/-- Numeric value of a digit string, as `int()` computes it. -/
def digitsToNat (ds : List Char) : Nat :=
  ds.foldl (fun n c => n * 10 + (c.toNat - '0'.toNat)) 0

/-- One microsecond-scaled second (durations and instants are `Int`
microseconds). -/
def usPerSec : Int := 1000000

/-- `timedelta(seconds=n)` in microseconds. -/
def tdSeconds (n : Int) : Int := n * usPerSec

/-- `timedelta(minutes=n)` in microseconds. -/
def tdMinutes (n : Int) : Int := n * 60 * usPerSec

/-- `timedelta(hours=n)` in microseconds. -/
def tdHours (n : Int) : Int := n * 3600 * usPerSec

/-- The character at index `i`, if any. -/
def charAt (cs : List Char) (i : Nat) : Option Char :=
  (cs.drop i).head?

/-- Exact literal `c` at index `i`. -/
def litAt (cs : List Char) (i : Nat) (c : Char) : Bool :=
  charAt cs i == some c

/-- Case-sensitive literal `pat` starting at index `i`. -/
def csAt (cs : List Char) (i : Nat) (pat : List Char) : Bool :=
  pat.isPrefixOf (cs.drop i)

/-- Case-insensitive (ASCII) literal `pat` (given lowercase) starting at
index `i`, as under `re.IGNORECASE`. -/
def ciAt (cs : List Char) (i : Nat) (pat : List Char) : Bool :=
  pat.isPrefixOf ((cs.drop i).map Char.toLower)

/-- Exactly `n` ASCII digits at index `i`, as a number (`\d{n}`). -/
def numAt (cs : List Char) (i n : Nat) : Option Nat :=
  let part := (cs.drop i).take n
  if part.length = n ∧ part.all isAsciiDigit then some (digitsToNat part) else none

/-- Python `\w` (ASCII core: alphanumeric or underscore). -/
def isWordChar (c : Char) : Bool :=
  c.isAlphanum || c == '_'

/-- Whether the character at index `i` exists and is a word character. -/
def isWordAt (cs : List Char) (i : Nat) : Bool :=
  (charAt cs i).elim false isWordChar

/-- The regex `\b` word boundary at position `i` (between indices `i - 1`
and `i`; out-of-range counts as non-word). -/
def wordB (cs : List Char) (i : Nat) : Bool :=
  (if i = 0 then false else isWordAt cs (i - 1)) != isWordAt cs i

/-! ## Duration grammar: `_parse_hms_duration` (source lines 53-69) -/

/-- One optional component `(?:(\d+)X)?` of the duration regex: a greedy
run of digits must be followed by the unit letter `u`, otherwise the whole
group matches nothing (the regex engine's greedy-with-backtracking behaviour
is deterministic here because a shortened digit run is still followed by a
digit, never by the unit letter). Returns the group's digits (if the group
participated) and the remaining input. -/
def unitGroupAux (u : Char) (cs ds rest : List Char) : Option (List Char) × List Char :=
  match ds, rest with
  | [], _ => (none, cs)
  | _, [] => (none, cs)
  | _ :: _, c :: rest1 => if c == u then (some ds, rest1) else (none, cs)

def unitGroup (u : Char) (cs : List Char) : Option (List Char) × List Char :=
  unitGroupAux u cs (cs.takeWhile isAsciiDigit) (cs.drop (cs.takeWhile isAsciiDigit).length)

/-- `re.fullmatch(r"(?:(?P<h>\d+)h)?(?:(?P<m>\d+)m)?(?:(?P<s>\d+)s)?", raw)`:
the three group values (`none` when a group did not participate), or `none`
when the whole string is not consumed.  Skipping a matchable group never
helps the engine here (the leftover digits would then hit the end-of-string
anchor), so the sequential greedy pass below is the engine's unique result. -/
def hmsFullmatch (cs : List Char) :
    Option (Option (List Char) × Option (List Char) × Option (List Char)) :=
  let (gh, r1) := unitGroup 'h' cs
  let (gm, r2) := unitGroup 'm' r1
  let (gs, r3) := unitGroup 's' r2
  if r3.isEmpty then some (gh, gm, gs) else none

/-- `_parse_hms_duration(s)` (source lines 53-69): strip and lowercase,
reject the empty string, full-match the duration grammar, read each group
with `int(m.group(...) or 0)`, reject an all-zero result, and otherwise
return `timedelta(hours=h, minutes=mm, seconds=ss)` (as microseconds). -/
def parse_hms_duration (s : String) : Option Int :=
  let raw := pyLower (pyStrip s)
  if raw.data.isEmpty then none
  else
    match hmsFullmatch raw.data with
    | none => none
    | some (gh, gm, gs) =>
      let h := (gh.map digitsToNat).getD 0
      let mm := (gm.map digitsToNat).getD 0
      let ss := (gs.map digitsToNat).getD 0
      if h = 0 ∧ mm = 0 ∧ ss = 0 then none
      else some (tdHours (h : Int) + tdMinutes (mm : Int) + tdSeconds (ss : Int))

/-! ## `_reset_after_from_text` (source lines 72-80) -/

/-- One optional component `(?:\d+X)?` under `re.IGNORECASE`, keeping the
original-case consumed text (digits plus the unit letter). -/
def unitGroupCi (u : Char) (cs : List Char) : List Char × List Char :=
  let ds := cs.takeWhile isAsciiDigit
  let rest := cs.drop ds.length
  match ds, rest with
  | [], _ => ([], cs)
  | _, [] => ([], cs)
  | _ :: _, c :: rest1 => if c.toLower == u then (ds ++ [c], rest1) else ([], cs)

/-- The `after` group `(?:\d+h)?(?:\d+m)?(?:\d+s)?` captured greedily at a
given point of the text (everything is optional, so the group always
matches, possibly as the empty string). -/
def captureDurationCi (cs : List Char) : List Char :=
  let (c1, r1) := unitGroupCi 'h' cs
  let (c2, r2) := unitGroupCi 'm' r1
  let (c3, _) := unitGroupCi 's' r2
  c1 ++ c2 ++ c3

/-- `RESET_AFTER_RE.search`: leftmost case-insensitive occurrence of
`reset after ` followed by the greedy `after` group (source line 42). -/
def resetAfterSearch (cs : List Char) : Option (List Char) :=
  (List.range (cs.length + 1)).findSome? (fun i =>
    if ciAt cs i "reset after ".data then some (captureDurationCi (cs.drop (i + 12)))
    else none)

/-- `QUOTA_RESET_RE.search`: leftmost case-insensitive occurrence of
`quota will reset after ` followed by the greedy `after` group
(source line 47). -/
def quotaResetSearch (cs : List Char) : Option (List Char) :=
  (List.range (cs.length + 1)).findSome? (fun i =>
    if ciAt cs i "quota will reset after ".data then
      some (captureDurationCi (cs.drop (i + 23)))
    else none)

/-- `_reset_after_from_text(text)` (source lines 72-80): first matching of
the two reset patterns, strip the captured group, parse it as a duration,
and drop falsy (absent or zero) results. -/
def reset_after_from_text (text : String) : Option (Int × String) :=
  match (resetAfterSearch text.data).orElse (fun _ => quotaResetSearch text.data) with
  | none => none
  | some afterChars =>
    let raw := pyStrip ⟨afterChars⟩
    match parse_hms_duration raw with
    | none => none
    | some td => if td = 0 then none else some (td, raw)

/-! ## Timestamp extraction: `_parse_ts_utc` (source lines 90-99) -/

/-- The fields of a `TS_RE` match
(`\d{4}-\d{2}-\d{2}T\d{2}:\d{2}:\d{2}(?:\.\d+)?Z`, source line 36). -/
structure TsFields where
  y : Nat
  mo : Nat
  d : Nat
  hh : Nat
  mi : Nat
  ss : Nat
  frac : List Char
deriving Repr, DecidableEq

/-- Try to match `TS_RE` at index `i` (the optional fraction is a greedy
digit run that must be followed by `Z`; shortening the run leaves a digit,
never `Z`, so greediness is deterministic). -/
def tsMatchAt (cs : List Char) (i : Nat) : Option TsFields := do
  let y ← numAt cs i 4
  guard (litAt cs (i + 4) '-')
  let mo ← numAt cs (i + 5) 2
  guard (litAt cs (i + 7) '-')
  let d ← numAt cs (i + 8) 2
  guard (litAt cs (i + 10) 'T')
  let hh ← numAt cs (i + 11) 2
  guard (litAt cs (i + 13) ':')
  let mi ← numAt cs (i + 14) 2
  guard (litAt cs (i + 16) ':')
  let ss ← numAt cs (i + 17) 2
  if litAt cs (i + 19) '.' then
    let fr := (cs.drop (i + 20)).takeWhile isAsciiDigit
    guard (fr.length ≥ 1 ∧ litAt cs (i + 20 + fr.length) 'Z')
    pure ⟨y, mo, d, hh, mi, ss, fr⟩
  else do
    guard (litAt cs (i + 19) 'Z')
    pure ⟨y, mo, d, hh, mi, ss, []⟩

/-- Gregorian leap year, as `datetime` uses it. -/
def isLeap (y : Nat) : Bool :=
  (y % 4 == 0 && y % 100 != 0) || y % 400 == 0

/-- Days in a month, as `datetime` validates it. -/
def daysInMonth (y mo : Nat) : Nat :=
  match mo with
  | 1 => 31
  | 2 => if isLeap y then 29 else 28
  | 3 => 31
  | 4 => 30
  | 5 => 31
  | 6 => 30
  | 7 => 31
  | 8 => 31
  | 9 => 30
  | 10 => 31
  | 11 => 30
  | 12 => 31
  | _ => 0

/-- Days between 1970-01-01 and the given civil date (the standard
days-from-civil computation; all intermediate divisions are of non-negative
numbers for valid years 1..9999, so `Int` division is exact floor). -/
def daysFromCivil (y mo d : Int) : Int :=
  let y1 := if mo ≤ 2 then y - 1 else y
  let era := y1 / 400
  let yoe := y1 - era * 400
  let mp := (mo + 9) % 12
  let doy := (153 * mp + 2) / 5 + d - 1
  let doe := yoe * 365 + yoe / 4 - yoe / 100 + doy
  era * 146097 + doe - 719468

/-- Microseconds denoted by a fraction digit string: `datetime.fromisoformat`
keeps the first six digits, right-padded with zeros. -/
def fracToMicros (fr : List Char) : Nat :=
  digitsToNat ((fr ++ List.replicate 6 '0').take 6)

/-- `datetime.fromisoformat` validation and epoch conversion of a matched
`TS_RE` timestamp (already UTC: the source rewrites `Z` to `+00:00`).
Returns UTC microseconds since 1970-01-01. -/
def tsToMicros (f : TsFields) : Option Int :=
  if 1 ≤ f.y ∧ f.y ≤ 9999 ∧ 1 ≤ f.mo ∧ f.mo ≤ 12 ∧ 1 ≤ f.d ∧ f.d ≤ daysInMonth f.y f.mo
      ∧ f.hh ≤ 23 ∧ f.mi ≤ 59 ∧ f.ss ≤ 59 then
    some (daysFromCivil (f.y : Int) (f.mo : Int) (f.d : Int) * 86400 * usPerSec
      + ((f.hh : Int) * 3600 + (f.mi : Int) * 60 + (f.ss : Int)) * usPerSec
      + (fracToMicros f.frac : Int))
  else none

/-- `_parse_ts_utc(line)` (source lines 90-99): leftmost `TS_RE` match,
converted with `datetime.fromisoformat` after `Z → +00:00`; `none` when the
pattern is absent or the fields are invalid. -/
def parse_ts_utc (line : String) : Option Int :=
  match (List.range (line.data.length + 1)).findSome? (fun i => tsMatchAt line.data i) with
  | none => none
  | some f => tsToMicros f

/-! ## `datetime.fromisoformat` model for watchdog audit timestamps -/

/-- Python `s.replace("Z", "+00:00")`. -/
def pyReplaceZ (s : String) : String :=
  ⟨s.data.foldr
    (fun c acc => if c == 'Z' then '+' :: '0' :: '0' :: ':' :: '0' :: '0' :: acc else c :: acc)
    []⟩

/-- The `±HH:MM` UTC offset at index `i`, consuming the rest of the string;
microseconds, signed. -/
def isoOffsetAt (cs : List Char) (i : Nat) : Option Int := do
  let sgn ← match charAt cs i with
    | some '+' => pure (1 : Int)
    | some '-' => pure (-1 : Int)
    | _ => none
  let hh ← numAt cs (i + 1) 2
  guard (litAt cs (i + 3) ':')
  let mi ← numAt cs (i + 4) 2
  guard (cs.length = i + 6 ∧ hh ≤ 23 ∧ mi ≤ 59)
  pure (sgn * ((hh : Int) * 3600 + (mi : Int) * 60) * usPerSec)

/-- Modelled core of `datetime.fromisoformat` as the source uses it on
watchdog audit timestamps: the common subset `YYYY-MM-DD`, optionally
followed by `T` or a space and `HH:MM`, `HH:MM:SS` or `HH:MM:SS.f+`,
optionally followed by a `±HH:MM` offset.  A naive result is treated as UTC
(the source immediately re-tags naive results with `tzinfo=utc`); an aware
result is converted to UTC by subtracting its offset.  Returns UTC
microseconds since the epoch. -/
def fromIsoUtcMicros (s : String) : Option Int := do
  let cs := s.data
  let y ← numAt cs 0 4
  guard (litAt cs 4 '-')
  let mo ← numAt cs 5 2
  guard (litAt cs 7 '-')
  let d ← numAt cs 8 2
  guard (1 ≤ y ∧ y ≤ 9999 ∧ 1 ≤ mo ∧ mo ≤ 12 ∧ 1 ≤ d ∧ d ≤ daysInMonth y mo)
  let dayUs : Int := daysFromCivil (y : Int) (mo : Int) (d : Int) * 86400 * usPerSec
  if cs.length = 10 then
    pure dayUs
  else do
    guard (litAt cs 10 'T' || litAt cs 10 ' ')
    let hh ← numAt cs 11 2
    guard (litAt cs 13 ':')
    let mi ← numAt cs 14 2
    guard (hh ≤ 23 ∧ mi ≤ 59)
    let hmUs : Int := dayUs + ((hh : Int) * 3600 + (mi : Int) * 60) * usPerSec
    if cs.length = 16 then
      pure hmUs
    else if litAt cs 16 ':' then do
      let ss ← numAt cs 17 2
      guard (ss ≤ 59)
      let sUs : Int := hmUs + (ss : Int) * usPerSec
      if cs.length = 19 then
        pure sUs
      else if litAt cs 19 '.' then do
        let fr := (cs.drop 20).takeWhile isAsciiDigit
        guard (1 ≤ fr.length ∧ fr.length ≤ 6)
        let fUs : Int := sUs + (fracToMicros fr : Int)
        if cs.length = 20 + fr.length then
          pure fUs
        else do
          let off ← isoOffsetAt cs (20 + fr.length)
          pure (fUs - off)
      else do
        let off ← isoOffsetAt cs 19
        pure (sUs - off)
    else do
      let off ← isoOffsetAt cs 16
      pure (hmUs - off)

/-! ## Transcribed regex searchers for the classifier -/

/-- `LANE_AGENT_RE.search` (source line 49):
`\blane=session:agent:(?P<agent>[^:]+):` under `re.IGNORECASE`.  The greedy
`[^:]+` run must be followed by `:`; shortening it leaves a non-colon
character, so only the maximal run can match. -/
def laneAgentSearch (cs : List Char) : Option (List Char) :=
  (List.range (cs.length + 1)).findSome? (fun i =>
    if wordB cs i && ciAt cs i "lane=session:agent:".data then
      let j := i + 19
      let run := (cs.drop j).takeWhile (fun c => c != ':')
      if run.length ≥ 1 && litAt cs (j + run.length) ':' then some run else none
    else none)

/-- `AGENT_DIR_RE.search` (source line 50):
`/\.openclaw/agents/(?P<agent>[^/]+)/` under `re.IGNORECASE`. -/
def agentDirSearch (cs : List Char) : Option (List Char) :=
  (List.range (cs.length + 1)).findSome? (fun i =>
    if ciAt cs i "/.openclaw/agents/".data then
      let j := i + 18
      let run := (cs.drop j).takeWhile (fun c => c != '/')
      if run.length ≥ 1 && litAt cs (j + run.length) '/' then some run else none
    else none)

/-- The character class `[\w-]` of provider names. -/
def provClassChar (c : Char) : Bool :=
  isWordChar c || c == '-'

/-- The character class `[\w\-./]` of model ids. -/
def modelIdChar (c : Char) : Bool :=
  isWordChar c || c == '-' || c == '.' || c == '/'

/-- `COOLDOWN_PROVIDER_RE.search` (source line 43):
`\bProvider\s+(?P<provider>[\w-]+)\s+is\s+in\s+cooldown\b` under
`re.IGNORECASE`.  Each greedy `\s+` or `[\w-]+` run is followed by a
character outside its class, so the maximal runs are the engine's match. -/
def cooldownProviderSearch (cs : List Char) : Option (List Char) :=
  (List.range (cs.length + 1)).findSome? (fun i =>
    if wordB cs i && ciAt cs i "provider".data then
      let j1 := i + 8
      let w1 := ((cs.drop j1).takeWhile pyIsSpace).length
      let prov := (cs.drop (j1 + w1)).takeWhile provClassChar
      let j3 := j1 + w1 + prov.length
      let w2 := ((cs.drop j3).takeWhile pyIsSpace).length
      let j4 := j3 + w2 + 2
      let w3 := ((cs.drop j4).takeWhile pyIsSpace).length
      let j5 := j4 + w3 + 2
      let w4 := ((cs.drop j5).takeWhile pyIsSpace).length
      if w1 ≥ 1 && prov.length ≥ 1 && w2 ≥ 1 && ciAt cs (j3 + w2) "is".data
          && w3 ≥ 1 && ciAt cs (j4 + w3) "in".data
          && w4 ≥ 1 && ciAt cs (j5 + w4) "cooldown".data && wordB cs (j5 + w4 + 8) then
        some prov
      else none
    else none)

/-- `CAPACITY_EXHAUSTED_RE.search` (source line 44), as a Bool. -/
def capacityExhaustedSearch (cs : List Char) : Bool :=
  (List.range (cs.length + 1)).any (fun i =>
    ciAt cs i "exhausted your capacity on this model".data)

/-- `CONTEXT_LIMIT_RE.search` (source line 45):
`(context length|max(?:imum)? tokens|token limit|too many tokens)` under
`re.IGNORECASE`, as a Bool. -/
def contextLimitSearch (cs : List Char) : Bool :=
  (List.range (cs.length + 1)).any (fun i =>
    ciAt cs i "context length".data || ciAt cs i "max tokens".data ||
    ciAt cs i "maximum tokens".data || ciAt cs i "token limit".data ||
    ciAt cs i "too many tokens".data)

/-- `ALL_MODELS_FAILED_BODY_RE.search` (source line 46):
`all models failed\s*\(\d+\)\s*:\s*(?P<body>.*)$` under `re.IGNORECASE`,
returning the `body` group (log lines contain no newline, so `.*$` is the
remainder of the line). -/
def allModelsFailedSearch (cs : List Char) : Option (List Char) :=
  (List.range (cs.length + 1)).findSome? (fun i =>
    if ciAt cs i "all models failed".data then
      let j1 := i + 17
      let w1 := ((cs.drop j1).takeWhile pyIsSpace).length
      let j2 := j1 + w1
      let ds := (cs.drop (j2 + 1)).takeWhile isAsciiDigit
      let j3 := j2 + 2 + ds.length
      let w2 := ((cs.drop j3).takeWhile pyIsSpace).length
      let j4 := j3 + w2 + 1
      let w3 := ((cs.drop j4).takeWhile pyIsSpace).length
      if litAt cs j2 '(' && ds.length ≥ 1 && litAt cs (j2 + 1 + ds.length) ')'
          && litAt cs (j3 + w2) ':' then
        some (cs.drop (j4 + w3))
      else none
    else none)

/-- `NO_API_KEY_RE.search` (source line 40):
`No API key found for provider\s+"(?P<provider>[\w-]+)"` (case-sensitive). -/
def noApiKeySearch (cs : List Char) : Option (List Char) :=
  (List.range (cs.length + 1)).findSome? (fun i =>
    if csAt cs i "No API key found for provider".data then
      let j1 := i + 29
      let w1 := ((cs.drop j1).takeWhile pyIsSpace).length
      let j2 := j1 + w1 + 1
      let prov := (cs.drop j2).takeWhile provClassChar
      if w1 ≥ 1 && litAt cs (j1 + w1) '"' && prov.length ≥ 1
          && litAt cs (j2 + prov.length) '"' then
        some prov
      else none
    else none)

/-- `UNKNOWN_MODEL_RE.search` (source line 38):
`Unknown model:\s*(?P<model>[\w\-./]+)` (case-sensitive). -/
def unknownModelSearch (cs : List Char) : Option (List Char) :=
  (List.range (cs.length + 1)).findSome? (fun i =>
    if csAt cs i "Unknown model:".data then
      let j1 := i + 14
      let w1 := ((cs.drop j1).takeWhile pyIsSpace).length
      let run := (cs.drop (j1 + w1)).takeWhile modelIdChar
      if run.length ≥ 1 then some run else none
    else none)

/-- `MODEL_QUOTED_RE.search` (source line 39):
`Model\s+"(?P<model>[\w\-./]+)"` (case-sensitive). -/
def modelQuotedSearch (cs : List Char) : Option (List Char) :=
  (List.range (cs.length + 1)).findSome? (fun i =>
    if csAt cs i "Model".data then
      let j1 := i + 5
      let w1 := ((cs.drop j1).takeWhile pyIsSpace).length
      let j2 := j1 + w1 + 1
      let run := (cs.drop j2).takeWhile modelIdChar
      if w1 ≥ 1 && litAt cs (j1 + w1) '"' && run.length ≥ 1
          && litAt cs (j2 + run.length) '"' then
        some run
      else none
    else none)

/-- `MODEL_NOT_ALLOWED_RE.search` (source line 41):
`Model\s+"(?P<model>[\w\-./]+)"\s+is not allowed` (case-sensitive). -/
def modelNotAllowedSearch (cs : List Char) : Option (List Char) :=
  (List.range (cs.length + 1)).findSome? (fun i =>
    if csAt cs i "Model".data then
      let j1 := i + 5
      let w1 := ((cs.drop j1).takeWhile pyIsSpace).length
      let j2 := j1 + w1 + 1
      let run := (cs.drop j2).takeWhile modelIdChar
      let j3 := j2 + run.length + 1
      let w2 := ((cs.drop j3).takeWhile pyIsSpace).length
      if w1 ≥ 1 && litAt cs (j1 + w1) '"' && run.length ≥ 1
          && litAt cs (j2 + run.length) '"' && w2 ≥ 1
          && csAt cs (j3 + w2) "is not allowed".data then
        some run
      else none
    else none)

/-- The character class `[\w.\-]` of `PROVIDER_MODEL_RE`'s model group. -/
def modelClassChar (c : Char) : Bool :=
  isWordChar c || c == '.' || c == '-'

/-- A greedy character-class capture at `j` with a trailing `\b`: the
longest length (at least 1, at most the maximal run) after which a word
boundary holds; the engine backtracks from the maximal run downwards. -/
def greedyRunWithB (cls : Char → Bool) (cs : List Char) (j : Nat) : Option Nat :=
  let n := ((cs.drop j).takeWhile cls).length
  (List.range n).findSome? (fun k =>
    let l := n - k
    if wordB cs (j + l) then some l else none)

/-- `\bmodel=(?P<model>[\w.\-]+)\b` matched at index `j`. -/
def modelAt (cs : List Char) (j : Nat) : Option (List Char) :=
  if wordB cs j && csAt cs j "model=".data then
    (greedyRunWithB modelClassChar cs (j + 6)).map (fun l => (cs.drop (j + 6)).take l)
  else none

/-- The rightmost `model=` occurrence at index `≥ lo` (the greedy `.*` of
`PROVIDER_MODEL_RE` makes the engine take the rightmost viable one). -/
def rightmostModel (cs : List Char) (lo : Nat) : Option (List Char) :=
  (List.range (cs.length + 1 - lo)).findSome? (fun k => modelAt cs (cs.length - k))

/-- `PROVIDER_MODEL_RE` (source line 37):
`\bprovider=(?P<provider>[\w-]+)\b.*\bmodel=(?P<model>[\w.\-]+)\b` matched
at index `i`: provider lengths are tried longest-first (each with its
trailing boundary), and for each the model is the rightmost viable
occurrence after it. -/
def providerModelAt (cs : List Char) (i : Nat) : Option (List Char × List Char) :=
  if wordB cs i && csAt cs i "provider=".data then
    let n := ((cs.drop (i + 9)).takeWhile provClassChar).length
    (List.range n).findSome? (fun k =>
      let l := n - k
      if wordB cs (i + 9 + l) then
        (rightmostModel cs (i + 9 + l)).map (fun m => ((cs.drop (i + 9)).take l, m))
      else none)
  else none

/-- `PROVIDER_MODEL_RE.search`: leftmost starting index. -/
def providerModelSearch (cs : List Char) : Option (List Char × List Char) :=
  (List.range (cs.length + 1)).findSome? (fun i => providerModelAt cs i)

/-! ## Model catalog and matrix data model -/

/-- `ModelRef` (source lines 147-151). -/
structure ModelRef where
  model_id : String
  provider : String
  model : String
deriving DecidableEq, Repr

/-- One value of the `matrix` dict: the keys `Provider`, `Model`, `Status`,
`Diagnosis` of source lines 256-262. -/
structure Row where
  Provider : String
  Model : String
  Status : String
  Diagnosis : String
deriving DecidableEq, Repr

/-- The aggregator's in-progress state: the insertion-ordered `matrix`
dict, the `events` list and the `last_seen` dict of `parse_llm_status`. -/
structure AggSt where
  matrix : List (String × Row)
  events : List String
  last_seen : List (String × Int × String)
deriving DecidableEq, Repr

/-- The parameters of `parse_llm_status` (source lines 243-251); `tzFmt`
stands for the out-of-scope `_fmt_local(·, tz)` formatter. -/
structure Cfg where
  models : List ModelRef
  tzFmt : Int → String
  now_utc : Int
  cooldown_sticky_minutes : Int
  rate_limit_sticky_minutes : Int

/-- Python dict lookup on an insertion-ordered association list. -/
def dictFind {α : Type} (m : List (String × α)) (k : String) : Option α :=
  (m.find? (fun p => p.1 == k)).map (fun p => p.2)

/-- Python dict assignment `m[k] = v`: overwrite in place when the key
exists, else append (all states built here have unique keys). -/
def dictSet {α : Type} (m : List (String × α)) (k : String) (v : α) :
    List (String × α) :=
  if (m.find? (fun p => p.1 == k)).isSome then
    m.map (fun p => if p.1 == k then (k, v) else p)
  else m ++ [(k, v)]

/-- `mid.split("/", 1)` when a slash is present, else
`("unknown", mid)` (source lines 281-285, 448-452, 480-484). -/
def splitModelId (mid : String) : String × String :=
  if mid.data.contains '/' then
    (⟨mid.data.takeWhile (fun c => c != '/')⟩,
      ⟨(mid.data.dropWhile (fun c => c != '/')).drop 1⟩)
  else ("unknown", mid)

/-- A freshly created healthy row for `mid`. -/
def defaultRow (mid : String) : Row :=
  { Provider := (splitModelId mid).1, Model := (splitModelId mid).2,
    Status := "🟢 健康", Diagnosis := "状态稳定，就绪中。" }

/-- `x.lstrip()[:1] == "🟢"` — the aggregator's green test (source lines
290 and 322). -/
def isGreenHead (s : String) : Bool :=
  (s.data.dropWhile pyIsSpace).take 1 == ['🟢']

/-! ## The aggregator closures of `parse_llm_status` -/

/-- The closure `apply(mid, status, diagnosis, event)` (source lines
280-293): ensure a row, combine severities with `_worse_status`, replace
the diagnosis when one was given and the stored diagnosis is still the
generic default or the combined status is non-green, and append the event
if truthy. -/
def applyF (st : AggSt) (mid status diagnosis : String) (event : Option String) : AggSt :=
  let m0 := if (dictFind st.matrix mid).isSome then st.matrix
            else dictSet st.matrix mid (defaultRow mid)
  let cur := (dictFind m0 mid).getD (defaultRow mid)
  let newStatus := worse_status cur.Status status
  let newDiag :=
    if diagnosis ≠ "" ∧ (pyStartsWith cur.Diagnosis "状态稳定" = true ∨ isGreenHead newStatus = false)
    then diagnosis else cur.Diagnosis
  let m1 := dictSet m0 mid { cur with Status := newStatus, Diagnosis := newDiag }
  let ev := match event with
    | some e => if e ≠ "" then st.events ++ [e] else st.events
    | none => st.events
  { st with matrix := m1, events := ev }

/-- The closure `record_last(mid, kind)` (source lines 295-300). -/
def recordLastF (ts : Option Int) (st : AggSt) (mid kind : String) : AggSt :=
  match ts with
  | none => st
  | some t =>
    match dictFind st.last_seen mid with
    | none => { st with last_seen := dictSet st.last_seen mid (t, kind) }
    | some prev =>
      if t > prev.1 then { st with last_seen := dictSet st.last_seen mid (t, kind) }
      else st

/-- The breadcrumb written for an out-of-window incident (source line 323). -/
def breadcrumbStr (ts_local kind : String) : String :=
  "最近一次异常: [" ++ ts_local ++ "] " ++ kind ++ "（窗口外/可能已恢复，需验证）"

/-- The activity test of `apply_incident` (source lines 312-314): a parsed
timestamp, a sticky deadline, and `now_utc < sticky_until`. -/
def incidentActive (now : Int) (ts sticky_until : Option Int) : Bool :=
  ts.isSome && (match sticky_until with
    | some su => decide (now < su)
    | none => false)

/-- The closure `apply_incident(...)` (source lines 302-326). -/
def applyIncidentF (now : Int) (ts : Option Int) (ts_local : String) (st : AggSt)
    (mid kind base_status diagnosis : String) (sticky_until : Option Int)
    (event : Option String) : AggSt :=
  let st1 :=
    if incidentActive now ts sticky_until then
      applyF st mid base_status diagnosis event
    else
      let stA := if (dictFind st.matrix mid).isSome then st
                 else applyF st mid "🟢 健康" "状态稳定，就绪中。" none
      let cur := (dictFind stA.matrix mid).getD (defaultRow mid)
      let crumbRow := { cur with Diagnosis := breadcrumbStr ts_local kind }
      let stB := if isGreenHead cur.Status then
                   { stA with matrix := dictSet stA.matrix mid crumbRow }
                 else stA
      match event with
      | some e => if e ≠ "" then { stB with events := stB.events ++ [e] } else stB
      | none => stB
  recordLastF ts st1 mid kind

/-! ## Line classification -/

/-- Python truthiness of an optional `timedelta`. -/
def tdTruthy : Option Int → Bool
  | none => false
  | some d => d != 0

/-- The `recovery` hint string (source lines 348, 472, 501):
`f"预计 {reset_raw} 后重置"` when both the duration and the raw text are
truthy. -/
def recoveryStr (reset_info : Option (Int × String)) : String :=
  match reset_info with
  | some (td, raw) => if td ≠ 0 ∧ raw ≠ "" then "预计 " ++ raw ++ " 后重置" else ""
  | none => ""

/-- The 429/rate-limit policy `(status, diagnosis, sticky_until)` of source
lines 361-373 (and its verbatim duplicate at lines 502-513): short reset
(≤ 1 h) → yellow, long reset → red quota/capacity, no reset → yellow with
the configurable sticky window. -/
def rateLimitPolicy (rl_sticky_minutes : Int) (ts : Option Int)
    (reset_info : Option (Int × String)) : String × String × Option Int :=
  let reset_td := reset_info.map (fun p => p.1)
  let recovery := recoveryStr reset_info
  if tdTruthy reset_td && decide (reset_td.getD 0 ≤ tdHours 1) then
    ("🟡 429 限流", pyStrip ("429 限流（短期/RPM 可能）。" ++ recovery),
      ts.map (fun t => t + reset_td.getD 0))
  else if tdTruthy reset_td then
    ("🔴 429 配额/容量限制", pyStrip ("429 配额/容量限制（需等待重置）。" ++ recovery),
      ts.map (fun t => t + reset_td.getD 0))
  else
    ("🟡 429 限流", "429 限流（可能是 RPM/并发）。",
      ts.map (fun t => t + tdMinutes rl_sticky_minutes))

/-- The 429 event string `f"[{ts_local}] {mid}: 429/rate_limit {recovery}".strip()`
(source lines 380 and 520). -/
def rateLimitEvent (ts_local mid recovery : String) : String :=
  pyStrip ("[" ++ ts_local ++ "] " ++ mid ++ ": 429/rate_limit " ++ recovery)

/-- One segment of the aggregate-failure body (source lines 344-401),
classified against `msg` and applied to its explicit `mid`. -/
def segBranch (cfg : Cfg) (ts : Option Int) (ts_local : String) (st : AggSt)
    (mid msg : String) : AggSt :=
  let mlow := pyLower msg
  let reset_info := reset_after_from_text msg
  if pyContains mlow "cooldown" || (cooldownProviderSearch msg.data).isSome then
    applyIncidentF cfg.now_utc ts ts_local st mid "cooldown" "🟡 瞬时限流"
      "Provider cooldown / 瞬时限流（窗口内曾出现）。"
      (ts.map (fun t => t + tdMinutes cfg.cooldown_sticky_minutes))
      (some ("[" ++ ts_local ++ "] " ++ mid ++ ": cooldown"))
  else if pyContains mlow "429" || pyContains mlow "rate_limit"
      || capacityExhaustedSearch msg.data then
    let p := rateLimitPolicy cfg.rate_limit_sticky_minutes ts reset_info
    applyIncidentF cfg.now_utc ts ts_local st mid "429/rate_limit" p.1 p.2.1 p.2.2
      (some (rateLimitEvent ts_local mid (recoveryStr reset_info)))
  else if pyContains mlow "timeout" || pyContains mlow "etimedout" then
    applyIncidentF cfg.now_utc ts ts_local st mid "timeout" "🟡 连接超时"
      "timeout / ETIMEDOUT（窗口内曾出现）。"
      (ts.map (fun t => t + tdMinutes 30))
      (some ("[" ++ ts_local ++ "] " ++ mid ++ ": timeout"))
  else if contextLimitSearch msg.data then
    applyIncidentF cfg.now_utc ts ts_local st mid "token/context limit" "🟡 Token/上下文上限"
      "Token/上下文上限触发（窗口内曾出现）。"
      (ts.map (fun t => t + tdHours 6))
      (some ("[" ++ ts_local ++ "] " ++ mid ++ ": token/context limit"))
  else st

/-- `_extract_provider_model(line)` (source lines 158-178): best-effort
`(provider, model, model_id)`. -/
def extract_provider_model (line : String) :
    Option String × Option String × Option String :=
  match providerModelSearch line.data with
  | some (p, m) => (some ⟨p⟩, some ⟨m⟩, some (String.mk p ++ "/" ++ String.mk m))
  | none =>
    match modelQuotedSearch line.data with
    | some mid =>
      if mid.contains '/' then
        (some ⟨mid.takeWhile (fun c => c != '/')⟩,
          some ⟨(mid.dropWhile (fun c => c != '/')).drop 1⟩, some ⟨mid⟩)
      else (none, some ⟨mid⟩, some ⟨mid⟩)
    | none => (none, none, none)

/-- The per-model-id classification of an ordinary line, one `mid` of the
`for mid in model_ids` loop (source lines 478-541), row creation included. -/
def midBranch (cfg : Cfg) (ts : Option Int) (ts_local : String) (line lowered : String)
    (st : AggSt) (mid : String) : AggSt :=
  let st := if (dictFind st.matrix mid).isSome then st
            else { st with matrix := dictSet st.matrix mid (defaultRow mid) }
  if pyContains lowered "cooldown" || (cooldownProviderSearch line.data).isSome then
    applyIncidentF cfg.now_utc ts ts_local st mid "cooldown" "🟡 瞬时限流"
      "Cooldown / 瞬时限流（窗口内曾出现）。"
      (ts.map (fun t => t + tdMinutes cfg.cooldown_sticky_minutes))
      (some ("[" ++ ts_local ++ "] " ++ mid ++ ": cooldown"))
  else if pyContains lowered "429" || pyContains lowered "rate_limit"
      || capacityExhaustedSearch line.data then
    let reset_info := reset_after_from_text line
    let p := rateLimitPolicy cfg.rate_limit_sticky_minutes ts reset_info
    applyIncidentF cfg.now_utc ts ts_local st mid "429/rate_limit" p.1 p.2.1 p.2.2
      (some (rateLimitEvent ts_local mid (recoveryStr reset_info)))
  else if pyContains lowered "timeout" || pyContains lowered "etimedout" then
    applyIncidentF cfg.now_utc ts ts_local st mid "timeout" "🟡 连接超时"
      "timeout / ETIMEDOUT（窗口内曾出现）。"
      (ts.map (fun t => t + tdMinutes 30))
      (some ("[" ++ ts_local ++ "] " ++ mid ++ ": timeout"))
  else if contextLimitSearch line.data then
    applyIncidentF cfg.now_utc ts ts_local st mid "token/context limit" "🟡 Token/上下文上限"
      "Token/上下文上限触发（窗口内曾出现）。"
      (ts.map (fun t => t + tdHours 6))
      (some ("[" ++ ts_local ++ "] " ++ mid ++ ": token/context limit"))
  else st

/-- The lane-marker agent filter (source lines 269-270): the line names a
non-`main` agent lane. -/
def laneDrop (line : String) : Bool :=
  match laneAgentSearch line.data with
  | some ag => pyLower (pyStrip ⟨ag⟩) != "main"
  | none => false

/-- The agent-directory filter (source lines 272-273). -/
def dirDrop (line : String) : Bool :=
  match agentDirSearch line.data with
  | some ag => pyLower (pyStrip ⟨ag⟩) != "main"
  | none => false

/-- `ts_local` (source line 277): the rendered local time of the line's
timestamp, `"??:??"` when absent. -/
def tsLocalOf (cfg : Cfg) (line : String) : String :=
  match parse_ts_utc line with
  | some t => cfg.tzFmt t
  | none => "??:??"

/-- Source lines 404-409: `_extract_provider_model` resolved against the
catalog's `(provider, model)` lookup (built by a dict comprehension, so a
duplicate key keeps the *last* catalog entry — hence the reversed search). -/
def modelIdOf (cfg : Cfg) (line : String) : Option String :=
  match (match (extract_provider_model line).1, (extract_provider_model line).2.1 with
    | some p, some m =>
      (cfg.models.reverse).find? (fun r : ModelRef => r.provider == p && r.model == m)
    | _, _ => none) with
  | some r => some r.model_id
  | none => (extract_provider_model line).2.2

/-- Source line 410: catalog models whose id occurs verbatim in the line
(`_find_model_refs_in_line`), only consulted when no model id resolved. -/
def matchedModelsOf (cfg : Cfg) (line : String) : List ModelRef :=
  if (modelIdOf cfg line).isNone then
    cfg.models.filter (fun r : ModelRef => pyContains line r.model_id)
  else []

/-- The aggregate-failure fan-out (source lines 331-402): split the body on
`|`, split each segment on its first `:`, guard against non-model left
sides, and classify each segment. -/
def amfBranch (cfg : Cfg) (ts : Option Int) (ts_local : String) (st : AggSt)
    (body : List Char) : AggSt :=
  (pySplitChar '|' body).foldl (fun st raw_seg =>
    let seg := pyStrip ⟨raw_seg⟩
    if !seg.data.contains ':' then st
    else
      let mid := pyStrip ⟨(pySplitFirst ':' seg.data).1⟩
      let msg := pyStrip ⟨(pySplitFirst ':' seg.data).2⟩
      if !mid.data.contains '/' && (dictFind st.matrix mid).isNone then st
      else segBranch cfg ts ts_local st mid msg) st

/-- The no-API-key fan-out (source lines 413-422): one event, then a red
missing-credential `apply` to every configured model of the provider. -/
def nkBranch (cfg : Cfg) (ts_local : String) (st : AggSt) (p : String) : AggSt :=
  let st := { st with events := st.events
    ++ ["[" ++ ts_local ++ "] provider=" ++ p ++ ": No API key"] }
  cfg.models.foldl (fun st m =>
    if m.provider != p then st
    else applyF st m.model_id "🔴 配置缺失" "未配置 API key（provider 认证失败）。" none) st

/-- The provider-wide cooldown fan-out (source lines 424-440). -/
def cpBranch (cfg : Cfg) (ts : Option Int) (ts_local : String) (st : AggSt)
    (p : String) : AggSt :=
  let st := { st with events := st.events
    ++ ["[" ++ ts_local ++ "] provider=" ++ p ++ ": cooldown"] }
  cfg.models.foldl (fun st m =>
    if m.provider != p then st
    else applyIncidentF cfg.now_utc ts ts_local st m.model_id "provider cooldown"
      "🟡 瞬时限流" "Provider cooldown（该 provider 下所有 profile 不可用）。"
      (ts.map (fun t => t + tdMinutes cfg.cooldown_sticky_minutes)) none) st

/-- The unknown/disallowed model branch (source lines 443-456). -/
def umBranch (ts_local : String) (st : AggSt) (mid : String) : AggSt :=
  let st := { st with events := st.events
    ++ ["[" ++ ts_local ++ "] model=" ++ mid ++ ": Unknown/Not allowed"] }
  let obsRow : Row :=
    { Provider := (splitModelId mid).1, Model := (splitModelId mid).2,
      Status := "🔴 模型无效", Diagnosis := "Unknown model / not allowed" }
  if (dictFind st.matrix mid).isNone then
    { st with matrix := dictSet st.matrix mid obsRow }
  else applyF st mid "🔴 模型无效" "Unknown model / not allowed" none

/-- The model-less breadcrumb fallback (source lines 465-476). -/
def noModelBranch (ts_local : String) (line : String) (st : AggSt) : AggSt :=
  let lowered := pyLower line
  if pyContains lowered "429" || pyContains lowered "rate_limit"
      || capacityExhaustedSearch line.data then
    { st with events := st.events
      ++ [pyStrip ("[" ++ ts_local ++ "] rate_limit(unknown model) "
            ++ recoveryStr (reset_after_from_text line))] }
  else if contextLimitSearch line.data then
    { st with events := st.events
      ++ ["[" ++ ts_local ++ "] token/context limit (unknown model)"] }
  else st

/-- One iteration of the main loop of `parse_llm_status` (source lines
267-541): the agent filter, timestamp extraction, the aggregate-failure
fan-out, provider-level failures, unknown/disallowed models, and per-model
classification (with the model-less breadcrumb fallback). -/
def processLine (cfg : Cfg) (st : AggSt) (line : String) : AggSt :=
  if laneDrop line || dirDrop line then st
  else
    let ts := parse_ts_utc line
    let ts_local := tsLocalOf cfg line
    let lowered := pyLower line
    match allModelsFailedSearch line.data with
    | some body => amfBranch cfg ts ts_local st body
    | none =>
      match noApiKeySearch line.data with
      | some pChars => nkBranch cfg ts_local st ⟨pChars⟩
      | none =>
        if (cooldownProviderSearch line.data).isSome && (modelIdOf cfg line).isNone
            && (matchedModelsOf cfg line).isEmpty then
          cpBranch cfg ts ts_local st ⟨(cooldownProviderSearch line.data).getD []⟩
        else
          match (unknownModelSearch line.data).orElse
              (fun _ => modelNotAllowedSearch line.data) with
          | some midChars => umBranch ts_local st ⟨midChars⟩
          | none =>
            match modelIdOf cfg line with
            | some mid => [mid].foldl (midBranch cfg ts ts_local line lowered) st
            | none =>
              if ((matchedModelsOf cfg line).map (fun r : ModelRef => r.model_id)).isEmpty then
                noModelBranch ts_local line st
              else ((matchedModelsOf cfg line).map (fun r : ModelRef => r.model_id)).foldl
                (midBranch cfg ts ts_local line lowered) st

/-- The initial matrix of configured models (source lines 255-262). -/
def initSt (cfg : Cfg) : AggSt :=
  { matrix := cfg.models.foldl (fun m r => dictSet m r.model_id
      { Provider := r.provider, Model := r.model,
        Status := "🟢 健康", Diagnosis := "状态稳定，就绪中。" }) [],
    events := [], last_seen := [] }

/-- Event de-duplication (source lines 559-565): a `seen` set plus an
ordered `uniq` list, first occurrence kept (the set is modelled by the
list of elements inserted so far). -/
def dedupEvents (events : List String) : List String :=
  (events.foldl (fun p e => if p.1.contains e then p else (p.1 ++ [e], p.2 ++ [e]))
    (([] : List String), ([] : List String))).2

/-- `parse_llm_status(lines, models, tz, now_utc=..., ...)` (source lines
243-566): fold the classifier over the lines, then emit the rows sorted by
`(Provider, Model)` and the de-duplicated event list capped to the last 30. -/
def parse_llm_status (cfg : Cfg) (lines : List String) : List Row × List String :=
  let st := lines.foldl (processLine cfg) (initSt cfg)
  (List.insertionSort
      (fun a b => a.Provider < b.Provider
        ∨ (a.Provider = b.Provider ∧ (a.Model < b.Model ∨ a.Model = b.Model)))
      (st.matrix.map (fun p => p.2)),
   pyLastN 30 (dedupEvents st.events))

/-! ## Restart analysis: `analyze_restarts` (source lines 599-651) -/

/-- A watchdog audit record as `analyze_restarts` reads it: a JSON object
with optional string `type` and `timestamp` fields (a missing or
non-string value never equals `"gateway_restart"` and never parses as a
timestamp, so `Option String` captures the cases the code distinguishes). -/
structure WdEvent where
  type : Option String
  timestamp : Option String
deriving DecidableEq, Repr

/-- Python `str(x)` on the optional timestamp field (`str(None)` is
`"None"`, which no timestamp grammar accepts). -/
def pyStrOpt : Option String → String
  | some s => s
  | none => "None"

/-- Watchdog `gateway_restart` timestamps (source lines 602-613): keep
records of that type whose timestamp parses with `fromisoformat` after
`Z → +00:00`; naive stamps are re-tagged as UTC. -/
def wdRestartTimes (events : List WdEvent) : List Int :=
  events.filterMap (fun e =>
    if e.type != some "gateway_restart" then none
    else fromIsoUtcMicros (pyReplaceZ (pyStrOpt e.timestamp)))

/-- Restart signal candidates `(timestamp, reason)` in line order (source
lines 615-630); a signal line without a parseable timestamp is skipped. -/
def restartCandidates (lines : List String) : List (Int × String) :=
  lines.filterMap (fun line =>
    let low := pyLower line
    if pyContains low "received sigusr1; restarting" then
      (parse_ts_utc line).map (fun t => (t, "用户配置变更 (SIGUSR1)"))
    else if pyContains low "received sigterm; shutting down" then
      (parse_ts_utc line).map (fun t => (t, "系统/服务重启 (SIGTERM)"))
    else if pyContains low "uncaught exception" || pyContains low "max reconnect attempts" then
      (parse_ts_utc line).map (fun t => (t, "异常退出/崩溃"))
    else none)

/-- `restarts.sort(key=lambda x: x[0], reverse=True)` (source line 633):
stable descending sort by timestamp (Python's sort is stable, and a stable
sort for this total preorder is exactly insertion sort's result). -/
def sortRestartsDesc (rs : List (Int × String)) : List (Int × String) :=
  List.insertionSort (fun a b => b.1 ≤ a.1) rs

/-- `abs((a - b).total_seconds()) <= lim`, exactly (microsecond integers;
`total_seconds` introduces no rounding that could cross these thresholds). -/
def withinSecs (a b lim : Int) : Bool :=
  decide (|a - b| ≤ lim * usPerSec)

/-- One step of the merge loop (source lines 635-641): a candidate within
90 s of the previously kept record is dropped into it (a crash reason —
`"异常"` in it — overwriting the kept reason); otherwise it is kept. -/
def mergeStep (merged : List (Int × String)) (c : Int × String) : List (Int × String) :=
  match merged.getLast? with
  | some last =>
    if withinSecs last.1 c.1 90 then
      if pyContains c.2 "异常" then merged.dropLast ++ [(last.1, c.2)] else merged
    else merged ++ [c]
  | none => [c]

/-- The merge loop over the descending-sorted candidates (source lines
634-641). -/
def mergeRestarts (rs : List (Int × String)) : List (Int × String) :=
  rs.foldl mergeStep []

/-- Structural recursion form of the event de-duplication loop, carrying
the `seen` set explicitly (used to reason about `dedupEvents`). -/
def dedupRec (seen : List String) : List String → List String
  | [] => []
  | e :: l => if seen.contains e then dedupRec seen l else e :: dedupRec (seen ++ [e]) l

/-- Severity never decreases from `st` to `st'`: every row of `st` is still
present with an equal-or-worse severity rank (the invariant of claim C10). -/
def MatrixMono (st st' : AggSt) : Prop :=
  ∀ mid row, dictFind st.matrix mid = some row →
    ∃ row', dictFind st'.matrix mid = some row' ∧
      statusOrder row.Status ≤ statusOrder row'.Status

/-- An output restart record (source lines 644-651). -/
structure RestartOut where
  timestamp : String
  reason : String
deriving DecidableEq, Repr

/-- `analyze_restarts(lines, watchdog_events, tz)` (source lines 599-651);
the inner for-with-break over watchdog times is the `any` test (the
relabel does not depend on which watchdog time matched). -/
def analyze_restarts (tzFmt : Int → String) (lines : List String)
    (watchdog_events : List WdEvent) : List RestartOut :=
  let wd := wdRestartTimes watchdog_events
  (mergeRestarts (sortRestartsDesc (restartCandidates lines))).map (fun c =>
    { timestamp := tzFmt c.1,
      reason := if wd.any (fun w => withinSecs w c.1 120) then "Watchdog 自愈触发" else c.2 })

/-! ## Spec-side duration grammar (for the refinement claim about
`_parse_hms_duration`) -/

/-- Spec-side rendering of one optional grammar component `(\d+X)?`:
absent, or its digit string followed by the unit letter. -/
def specComponent (g : Option (List Char)) (u : Char) : List Char :=
  match g with
  | none => []
  | some l => l ++ [u]

/-- A component is well-formed: absent, or a nonempty digit string. -/
def goodComponent : Option (List Char) → Bool
  | none => true
  | some l => !l.isEmpty && l.all isAsciiDigit

/-- Modelled from the spec: membership of `cs` in the duration grammar
`(\d+h)?(\d+m)?(\d+s)?` with components `dh`, `dm`, `ds` — each present
component a nonempty digit run, components in fixed hours-minutes-seconds
order, at least one component present. -/
def specHmsRepr (cs : List Char) (dh dm ds : Option (List Char)) : Prop :=
  cs = specComponent dh 'h' ++ (specComponent dm 'm' ++ specComponent ds 's') ∧
  goodComponent dh = true ∧ goodComponent dm = true ∧ goodComponent ds = true ∧
  (dh.isSome ∨ dm.isSome ∨ ds.isSome)

/-- Total seconds denoted by a grammar decomposition (absent components
count as zero, as `int(m.group(...) or 0)` reads them). -/
def specHmsValue (dh dm ds : Option (List Char)) : Nat :=
  3600 * (dh.map digitsToNat).getD 0 + 60 * (dm.map digitsToNat).getD 0
    + (ds.map digitsToNat).getD 0

end HealthFetcher

namespace HealthFetcher

/-! # Theorems -/

/-! ## Severity lattice algebra -/

theorem worse_status_idem (a : String) : worse_status a a = a := by
  simp [worse_status]

theorem worse_status_assoc (a b c : String) :
    worse_status (worse_status a b) c = worse_status a (worse_status b c) := by
  unfold worse_status
  rcases le_or_lt (statusOrder b) (statusOrder a) with h1 | h1
  · rw [if_pos h1]
    rcases le_or_lt (statusOrder c) (statusOrder b) with h2 | h2
    · rw [if_pos h2, if_pos h1, if_pos (le_trans h2 h1)]
    · rw [if_neg (not_le.mpr h2)]
  · rw [if_neg (not_le.mpr h1)]
    rcases le_or_lt (statusOrder c) (statusOrder b) with h2 | h2
    · rw [if_pos h2, if_neg (not_le.mpr h1)]
    · rw [if_neg (not_le.mpr h2), if_neg (not_le.mpr (lt_trans h1 h2))]

theorem worse_status_rank_comm (a b : String) :
    statusOrder (worse_status a b) = statusOrder (worse_status b a) := by
  unfold worse_status
  rcases le_or_lt (statusOrder b) (statusOrder a) with h1 | h1
  · rcases le_or_lt (statusOrder a) (statusOrder b) with h2 | h2
    · rw [if_pos h1, if_pos h2]; exact le_antisymm h2 h1
    · rw [if_pos h1, if_neg (not_le.mpr h2)]
  · rw [if_neg (not_le.mpr h1), if_pos (le_of_lt h1)]

theorem worse_status_comm_of_ne_rank (a b : String)
    (h : statusOrder a ≠ statusOrder b) : worse_status a b = worse_status b a := by
  unfold worse_status
  rcases le_or_lt (statusOrder b) (statusOrder a) with h1 | h1
  · rw [if_pos h1, if_neg (fun h2 => h (le_antisymm h2 h1))]
  · rw [if_neg (not_le.mpr h1), if_pos (le_of_lt h1)]

/-! ## Duration grammar lemmas -/

theorem takeWhile_all_append (p : Char → Bool) (l r : List Char) (h : l.all p = true) :
    (l ++ r).takeWhile p = l ++ r.takeWhile p := by
  induction l with
  | nil => simp
  | cons x xs ih =>
    simp only [List.all_cons, Bool.and_eq_true] at h
    simp [List.takeWhile_cons, h.1, ih h.2]

theorem unitGroup_some (u : Char) (cs ds rest : List Char)
    (h : unitGroup u cs = (some ds, rest)) :
    cs = ds ++ u :: rest ∧ ds ≠ [] ∧ ds.all isAsciiDigit = true := by
  unfold unitGroup at h
  rcases h1 : cs.takeWhile isAsciiDigit with _ | ⟨x, xs⟩ <;> rw [h1] at h
  · simp [unitGroupAux] at h
  · rcases h2 : cs.drop (x :: xs).length with _ | ⟨c, r1⟩ <;> rw [h2] at h
    · simp [unitGroupAux] at h
    · rcases h3 : (c == u) with _ | _ <;> simp [unitGroupAux, h3] at h
      obtain ⟨hds, hrest⟩ := h
      have hcs : cs = (x :: xs) ++ cs.dropWhile isAsciiDigit := by
        conv_lhs => rw [← List.takeWhile_append_dropWhile isAsciiDigit cs]
        rw [h1]
      have hdw : cs.dropWhile isAsciiDigit = c :: r1 := by
        have h2' := h2
        rw [hcs, List.drop_left] at h2'
        exact h2'
      refine ⟨?_, by simp [← hds], ?_⟩
      · rw [hcs, hdw, ← hds, ← hrest, (beq_iff_eq ..).mp h3]
      · rw [← hds, ← h1]
        exact List.all_eq_true.mpr (fun x hx => List.mem_takeWhile_imp hx)

theorem unitGroup_none (u : Char) (cs rest : List Char)
    (h : unitGroup u cs = (none, rest)) : rest = cs := by
  unfold unitGroup at h
  rcases h1 : cs.takeWhile isAsciiDigit with _ | ⟨x, xs⟩ <;> rw [h1] at h
  · simp [unitGroupAux] at h; exact h.symm
  · rcases h2 : cs.drop (x :: xs).length with _ | ⟨c, r1⟩ <;> rw [h2] at h
    · simp [unitGroupAux] at h; exact h.symm
    · rcases h3 : (c == u) with _ | _ <;> simp [unitGroupAux, h3] at h
      exact h.symm

theorem unitGroup_decomp (u : Char) (cs : List Char) (g : Option (List Char))
    (rest : List Char) (h : unitGroup u cs = (g, rest)) :
    cs = specComponent g u ++ rest ∧ goodComponent g = true := by
  cases g with
  | none =>
    have := unitGroup_none u cs rest h
    simp [specComponent, goodComponent, this]
  | some l =>
    obtain ⟨hcs, hne, hall⟩ := unitGroup_some u cs l rest h
    refine ⟨by simpa [specComponent] using hcs, ?_⟩
    simp [goodComponent, hall, List.isEmpty_iff, hne]

theorem unitGroup_nil (u : Char) : unitGroup u [] = (none, []) := by
  unfold unitGroup
  simp [unitGroupAux]

theorem unitGroup_run (u : Char) (ds rest : List Char) (hne : ds ≠ [])
    (hds : ds.all isAsciiDigit = true) (hu : isAsciiDigit u = false) :
    unitGroup u (ds ++ u :: rest) = (some ds, rest) := by
  unfold unitGroup
  have htw : (ds ++ u :: rest).takeWhile isAsciiDigit = ds := by
    rw [takeWhile_all_append _ _ _ hds]
    simp [List.takeWhile_cons, hu]
  have hdr : (ds ++ u :: rest).drop ds.length = u :: rest := List.drop_left ..
  rw [htw, hdr]
  cases ds with
  | nil => exact absurd rfl hne
  | cons x xs => simp [unitGroupAux]

theorem unitGroup_no_head (u c : Char) (l rest : List Char)
    (hl : l.all isAsciiDigit = true) (hc : isAsciiDigit c = false)
    (hcu : (c == u) = false) :
    unitGroup u (l ++ c :: rest) = (none, l ++ c :: rest) := by
  unfold unitGroup
  have htw : (l ++ c :: rest).takeWhile isAsciiDigit = l := by
    rw [takeWhile_all_append _ _ _ hl]
    simp [List.takeWhile_cons, hc]
  have hdr : (l ++ c :: rest).drop l.length = c :: rest := List.drop_left ..
  rw [htw, hdr]
  cases l with
  | nil => simp [unitGroupAux]
  | cons x xs => simp [unitGroupAux, hcu]

theorem ne_nil_of_isEmpty_false {l : List Char} (h : l.isEmpty = false) : l ≠ [] := by
  intro he
  subst he
  simp at h

theorem unitGroup_component (u : Char) (g : Option (List Char)) (tail : List Char)
    (hg : goodComponent g = true) (hu : isAsciiDigit u = false)
    (hnone : unitGroup u tail = (none, tail)) :
    unitGroup u (specComponent g u ++ tail) = (g, tail) := by
  cases g with
  | none => simpa [specComponent] using hnone
  | some l =>
    simp only [goodComponent, Bool.and_eq_true, Bool.not_eq_true'] at hg
    simpa [specComponent] using unitGroup_run u l tail (ne_nil_of_isEmpty_false hg.1) hg.2 hu

theorem unitGroup_h_skips (dm ds : Option (List Char))
    (h2 : goodComponent dm = true) (h3 : goodComponent ds = true) :
    unitGroup 'h' (specComponent dm 'm' ++ specComponent ds 's')
      = (none, specComponent dm 'm' ++ specComponent ds 's') := by
  cases dm with
  | some l =>
    simp only [goodComponent, Bool.and_eq_true, Bool.not_eq_true'] at h2
    simpa [specComponent] using unitGroup_no_head 'h' 'm' l (specComponent ds 's') h2.2 (by decide) (by decide)
  | none =>
    cases ds with
    | some l =>
      simp only [goodComponent, Bool.and_eq_true, Bool.not_eq_true'] at h3
      simpa [specComponent] using unitGroup_no_head 'h' 's' l [] h3.2 (by decide) (by decide)
    | none => simpa [specComponent] using unitGroup_nil 'h'

theorem unitGroup_m_skips (ds : Option (List Char)) (h3 : goodComponent ds = true) :
    unitGroup 'm' (specComponent ds 's') = (none, specComponent ds 's') := by
  cases ds with
  | some l =>
    simp only [goodComponent, Bool.and_eq_true, Bool.not_eq_true'] at h3
    simpa [specComponent] using unitGroup_no_head 'm' 's' l [] h3.2 (by decide) (by decide)
  | none => simpa [specComponent] using unitGroup_nil 'm'

theorem hmsFullmatch_spec (dh dm ds : Option (List Char))
    (h1 : goodComponent dh = true) (h2 : goodComponent dm = true)
    (h3 : goodComponent ds = true) :
    hmsFullmatch (specComponent dh 'h' ++ (specComponent dm 'm' ++ specComponent ds 's'))
      = some (dh, dm, ds) := by
  have e3 : unitGroup 's' (specComponent ds 's') = (ds, []) := by
    simpa using unitGroup_component 's' ds [] h3 (by decide) (unitGroup_nil 's')
  have e2 : unitGroup 'm' (specComponent dm 'm' ++ specComponent ds 's')
      = (dm, specComponent ds 's') :=
    unitGroup_component 'm' dm _ h2 (by decide) (unitGroup_m_skips ds h3)
  have e1 : unitGroup 'h' (specComponent dh 'h' ++ (specComponent dm 'm' ++ specComponent ds 's'))
      = (dh, specComponent dm 'm' ++ specComponent ds 's') :=
    unitGroup_component 'h' dh _ h1 (by decide) (unitGroup_h_skips dm ds h2 h3)
  unfold hmsFullmatch
  rw [e1]
  dsimp only
  rw [e2]
  dsimp only
  rw [e3]
  dsimp only
  simp

theorem hmsFullmatch_inv (cs : List Char) (gh gm gs : Option (List Char))
    (h : hmsFullmatch cs = some (gh, gm, gs)) :
    cs = specComponent gh 'h' ++ (specComponent gm 'm' ++ specComponent gs 's') ∧
    goodComponent gh = true ∧ goodComponent gm = true ∧ goodComponent gs = true := by
  unfold hmsFullmatch at h
  rcases e1 : unitGroup 'h' cs with ⟨gh0, r1⟩
  rw [e1] at h
  dsimp only at h
  rcases e2 : unitGroup 'm' r1 with ⟨gm0, r2⟩
  rw [e2] at h
  dsimp only at h
  rcases e3 : unitGroup 's' r2 with ⟨gs0, r3⟩
  rw [e3] at h
  dsimp only at h
  rcases e4 : r3.isEmpty with _ | _ <;> rw [e4] at h <;> simp at h
  obtain ⟨hh, hm, hs⟩ := h
  obtain ⟨d1, g1⟩ := unitGroup_decomp 'h' cs gh0 r1 e1
  obtain ⟨d2, g2⟩ := unitGroup_decomp 'm' r1 gm0 r2 e2
  obtain ⟨d3, g3⟩ := unitGroup_decomp 's' r2 gs0 r3 e3
  subst hh hm hs
  have hr3 : r3 = [] := List.isEmpty_iff.mp e4
  subst hr3
  refine ⟨?_, g1, g2, g3⟩
  rw [d1, d2, d3]
  simp

end HealthFetcher

namespace HealthFetcher

theorem td_sum_eq (a b c : Nat) :
    tdHours (a : Int) + tdMinutes (b : Int) + tdSeconds (c : Int)
      = ((3600 * a + 60 * b + c : Nat) : Int) * usPerSec := by
  simp only [tdHours, tdMinutes, tdSeconds]
  push_cast
  ring

/-- **C8** (counterexample): the string `"0h"` is in the spec's duration
grammar with its hours component present (one matched unit), yet
`_parse_hms_duration("0h")` returns `None` — the claim that every string
with at least one matched unit is valid fails. -/
theorem parse_hms_duration_zero_unit_cex :
    specHmsRepr (pyLower (pyStrip "0h")).data (some ['0']) none none ∧
    parse_hms_duration "0h" = none := by
  constructor
  · exact ⟨by decide, by decide, by decide, by decide, Or.inl rfl⟩
  · decide

/-- **C8** (amended): after Python's `strip().lower()` normalisation,
`_parse_hms_duration` accepts exactly the strings of the grammar
`(\d+h)?(\d+m)?(\d+s)?` that have at least one component present *and* a
positive total value; a string with zero matched units, or whose matched
units are all zero (such as `"0h"`), parses to none, and every accepted
string parses to its grammar value. -/
theorem parse_hms_duration_grammar (s : String) :
    (∀ d, parse_hms_duration s = some d →
      ∃ dh dm ds, specHmsRepr (pyLower (pyStrip s)).data dh dm ds ∧
        0 < specHmsValue dh dm ds ∧ d = (specHmsValue dh dm ds : Int) * usPerSec) ∧
    (∀ dh dm ds, specHmsRepr (pyLower (pyStrip s)).data dh dm ds →
      0 < specHmsValue dh dm ds →
      parse_hms_duration s = some ((specHmsValue dh dm ds : Int) * usPerSec)) ∧
    (∀ dh dm ds, specHmsRepr (pyLower (pyStrip s)).data dh dm ds →
      specHmsValue dh dm ds = 0 → parse_hms_duration s = none) := by
  refine ⟨?_, ?_, ?_⟩
  · intro d hd
    by_cases he : (pyLower (pyStrip s)).data.isEmpty = true
    · simp [parse_hms_duration, he] at hd
    · rcases hm : hmsFullmatch (pyLower (pyStrip s)).data with _ | ⟨gh, gm, gs⟩
      · simp [parse_hms_duration, he, hm] at hd
      · by_cases hz : (gh.map digitsToNat).getD 0 = 0 ∧ (gm.map digitsToNat).getD 0 = 0
            ∧ (gs.map digitsToNat).getD 0 = 0
        · simp [parse_hms_duration, he, hm, hz] at hd
        · obtain ⟨hcs, g1, g2, g3⟩ := hmsFullmatch_inv _ gh gm gs hm
          refine ⟨gh, gm, gs, ⟨hcs, g1, g2, g3, ?_⟩, ?_, ?_⟩
          · rcases gh with _ | lh
            · rcases gm with _ | lm
              · rcases gs with _ | ls
                · simp at hz
                · exact Or.inr (Or.inr rfl)
              · exact Or.inr (Or.inl rfl)
            · exact Or.inl rfl
          · simp only [specHmsValue]
            omega
          · have hd2 : parse_hms_duration s
                = some (tdHours ((gh.map digitsToNat).getD 0 : Int)
                    + tdMinutes ((gm.map digitsToNat).getD 0 : Int)
                    + tdSeconds ((gs.map digitsToNat).getD 0 : Int)) := by
              simp [parse_hms_duration, he, hm, hz]
            rw [hd] at hd2
            rw [← Option.some_inj.mp hd2.symm, td_sum_eq]
            rfl
  · intro dh dm ds hrepr hpos
    obtain ⟨hcs, g1, g2, g3, hsome⟩ := hrepr
    have hne : (pyLower (pyStrip s)).data.isEmpty = false := by
      rcases hee : (pyLower (pyStrip s)).data.isEmpty with _ | _
      · rfl
      · exfalso
        have h0 : (pyLower (pyStrip s)).data = [] := List.isEmpty_iff.mp hee
        rw [hcs] at h0
        simp only [List.append_eq_nil] at h0
        rcases hsome with h | h | h <;> obtain ⟨l, hl⟩ := Option.isSome_iff_exists.mp h <;>
          subst hl <;> simp [specComponent] at h0
    have hfm := hmsFullmatch_spec dh dm ds g1 g2 g3
    rw [← hcs] at hfm
    have hz : ¬ ((dh.map digitsToNat).getD 0 = 0 ∧ (dm.map digitsToNat).getD 0 = 0
        ∧ (ds.map digitsToNat).getD 0 = 0) := by
      intro hall
      simp only [specHmsValue, hall.1, hall.2.1, hall.2.2] at hpos
      omega
    simp only [parse_hms_duration, hne, Bool.false_eq_true, if_false, hfm, if_neg hz]
    rw [specHmsValue, td_sum_eq]
  · intro dh dm ds hrepr hzero
    obtain ⟨hcs, g1, g2, g3, hsome⟩ := hrepr
    by_cases he : (pyLower (pyStrip s)).data.isEmpty = true
    · simp [parse_hms_duration, he]
    · have hfm := hmsFullmatch_spec dh dm ds g1 g2 g3
      rw [← hcs] at hfm
      have hz : (dh.map digitsToNat).getD 0 = 0 ∧ (dm.map digitsToNat).getD 0 = 0
          ∧ (ds.map digitsToNat).getD 0 = 0 := by
        simp only [specHmsValue] at hzero
        omega
      simp [parse_hms_duration, he, hfm, hz]

/-- **C8** (witness): the amended theorem applied at `"45m"`. -/
theorem parse_hms_duration_grammar_witness :
    parse_hms_duration "45m" = some ((specHmsValue none (some ['4', '5']) none : Int) * usPerSec) :=
  (parse_hms_duration_grammar "45m").2.1 none (some ['4', '5']) none
    ⟨by decide, by decide, by decide, by decide, Or.inr (Or.inl rfl)⟩ (by decide)

end HealthFetcher

namespace HealthFetcher

/-! ## Dictionary lemmas -/

theorem bool_not_true {b : Bool} (h : ¬ b = true) : b = false := by
  cases b
  · rfl
  · exact absurd rfl h

theorem find?_cons_true {α : Type} (p : α → Bool) (a : α) (t : List α) (h : p a = true) :
    List.find? p (a :: t) = some a := by
  rw [List.find?_cons, h]

theorem find?_cons_false {α : Type} (p : α → Bool) (a : α) (t : List α) (h : p a = false) :
    List.find? p (a :: t) = List.find? p t := by
  rw [List.find?_cons, h]

theorem find_map_set {α : Type} (m : List (String × α)) (k : String) (v : α) :
    ((m.map (fun p => if p.1 == k then (k, v) else p)).find? (fun p => p.1 == k))
      = if (m.find? (fun p => p.1 == k)).isSome then some (k, v) else none := by
  induction m with
  | nil => simp
  | cons a t ih =>
    rw [List.map_cons]
    by_cases ha : (a.1 == k) = true
    · rw [if_pos ha, find?_cons_true (fun p => p.1 == k) ((k, v) : String × α) _ (by simp),
        find?_cons_true (fun p => p.1 == k) a t ha]
      simp
    · rw [if_neg ha, find?_cons_false (fun p => p.1 == k) a _ (bool_not_true ha),
        find?_cons_false (fun p => p.1 == k) a t (bool_not_true ha), ih]

theorem find_map_set_other {α : Type} (m : List (String × α)) (k : String) (v : α)
    (k' : String) (h : k' ≠ k) :
    ((m.map (fun p => if p.1 == k then (k, v) else p)).find? (fun p => p.1 == k'))
      = m.find? (fun p => p.1 == k') := by
  induction m with
  | nil => simp
  | cons a t ih =>
    rw [List.map_cons]
    by_cases ha : (a.1 == k) = true
    · have hak : a.1 = k := by simpa using ha
      have h1 : (((k, v) : String × α).1 == k') = false := by
        simpa using fun hh => h hh.symm
      have h2 : (a.1 == k') = false := by
        simpa [hak] using fun hh => h hh.symm
      rw [if_pos ha, find?_cons_false (fun p => p.1 == k') ((k, v) : String × α) _ h1,
        find?_cons_false (fun p => p.1 == k') a t h2, ih]
    · rw [if_neg ha]
      by_cases hb : (a.1 == k') = true
      · rw [find?_cons_true (fun p => p.1 == k') a _ hb,
          find?_cons_true (fun p => p.1 == k') a t hb]
      · rw [find?_cons_false (fun p => p.1 == k') a _ (bool_not_true hb),
          find?_cons_false (fun p => p.1 == k') a t (bool_not_true hb), ih]

theorem dictFind_dictSet_self {α : Type} (m : List (String × α)) (k : String) (v : α) :
    dictFind (dictSet m k v) k = some v := by
  unfold dictFind dictSet
  by_cases h : (m.find? (fun p => p.1 == k)).isSome
  · rw [if_pos h, find_map_set, if_pos h]
    rfl
  · rw [if_neg h, List.find?_append]
    have h0 : m.find? (fun p => p.1 == k) = none := by
      rcases he : m.find? (fun p => p.1 == k) with _ | x
      · exact he
      · rw [he] at h
        simp at h
    rw [h0, find?_cons_true (fun p => p.1 == k) ((k, v) : String × α) [] (by simp)]
    rfl

theorem dictFind_dictSet_other {α : Type} (m : List (String × α)) (k : String) (v : α)
    (k' : String) (h : k' ≠ k) :
    dictFind (dictSet m k v) k' = dictFind m k' := by
  unfold dictFind dictSet
  by_cases hs : (m.find? (fun p => p.1 == k)).isSome
  · rw [if_pos hs, find_map_set_other _ _ _ _ h]
  · rw [if_neg hs, List.find?_append]
    have h1 : (((k, v) : String × α).1 == k') = false := by
      simpa using fun hh => h hh.symm
    rw [find?_cons_false (fun p => p.1 == k') ((k, v) : String × α) [] h1]
    rcases he : m.find? (fun p => p.1 == k') with _ | x <;> simp

/-! ## `apply` lemmas -/

/-- The row written by `apply` for `mid` over the previous row `cur` (the
default when the row is fresh). -/
def appliedRow (cur : Row) (status diagnosis : String) : Row :=
  { cur with
    Status := worse_status cur.Status status,
    Diagnosis :=
      if diagnosis ≠ "" ∧ (pyStartsWith cur.Diagnosis "状态稳定" = true
          ∨ isGreenHead (worse_status cur.Status status) = false)
      then diagnosis else cur.Diagnosis }

theorem applyF_find_self (st : AggSt) (mid status diagnosis : String)
    (event : Option String) :
    dictFind (applyF st mid status diagnosis event).matrix mid
      = some (appliedRow ((dictFind st.matrix mid).getD (defaultRow mid)) status diagnosis) := by
  rcases hopt : dictFind st.matrix mid with _ | cur
  · simp only [applyF, hopt, Option.isSome_none, Bool.false_eq_true, if_false,
      dictFind_dictSet_self, Option.getD_none, appliedRow]
    simp
  · simp only [applyF, hopt, Option.isSome_some, if_true, dictFind_dictSet_self,
      Option.getD_some, appliedRow]

theorem applyF_find_other (st : AggSt) (mid status diagnosis : String)
    (event : Option String) (mid' : String) (h : mid' ≠ mid) :
    dictFind (applyF st mid status diagnosis event).matrix mid'
      = dictFind st.matrix mid' := by
  rcases hopt : dictFind st.matrix mid with _ | cur
  · simp only [applyF, hopt, Option.isSome_none, Bool.false_eq_true, if_false]
    rw [dictFind_dictSet_other _ _ _ _ h, dictFind_dictSet_other _ _ _ _ h]
  · simp only [applyF, hopt, Option.isSome_some, if_true]
    rw [dictFind_dictSet_other _ _ _ _ h]

end HealthFetcher

namespace HealthFetcher

/-! ## Severity rank lemmas -/

theorem statusOrder_worse (a b : String) :
    statusOrder (worse_status a b) = max (statusOrder a) (statusOrder b) := by
  unfold worse_status
  rcases le_or_lt (statusOrder b) (statusOrder a) with h | h
  · rw [if_pos h, Nat.max_eq_left h]
  · rw [if_neg (not_le.mpr h), Nat.max_eq_right (le_of_lt h)]

theorem statusOrder_le_three (s : String) : statusOrder s ≤ 3 := by
  unfold statusOrder
  split <;> omega

theorem isGreenHead_iff (s : String) : isGreenHead s = true ↔ statusOrder s = 1 := by
  unfold isGreenHead statusOrder
  split
  · next heq => rw [heq]; simp
  · next heq => rw [heq]; simp
  · next heq => rw [heq]; simp
  · next x h1 h2 h3 =>
    constructor
    · intro hb
      exact absurd (by simpa using hb) h3
    · intro h0
      omega

theorem isGreenHead_false_of_rank (s : String) (h : statusOrder s ≠ 1) :
    isGreenHead s = false := by
  apply bool_not_true
  intro hb
  exact h ((isGreenHead_iff s).mp hb)

/-! ## C6: algebra of `_worse_status` -/

/-- **C6** (counterexample): `_worse_status` is not commutative on status
strings — two distinct statuses of equal severity rank (here the two yellow
statuses the aggregator actually uses) give different results depending on
argument order, because ties keep the left argument. -/
theorem worse_status_not_comm_cex :
    worse_status "🟡 429 限流" "🟡 瞬时限流" = "🟡 429 限流" ∧
    worse_status "🟡 瞬时限流" "🟡 429 限流" = "🟡 瞬时限流" ∧
    worse_status "🟡 429 限流" "🟡 瞬时限流" ≠ worse_status "🟡 瞬时限流" "🟡 429 限流" := by
  refine ⟨by decide, by decide, by decide⟩

/-- **C6** (amended): `_worse_status` is idempotent and associative, and it
is commutative *up to severity rank*: `worse(a,b)` and `worse(b,a)` always
have the same rank, and they are equal whenever the two ranks differ (ties
between distinct strings keep the left argument, so full commutativity
fails). -/
theorem worse_status_algebra :
    (∀ a : String, worse_status a a = a) ∧
    (∀ a b c : String,
      worse_status (worse_status a b) c = worse_status a (worse_status b c)) ∧
    (∀ a b : String, statusOrder (worse_status a b) = statusOrder (worse_status b a)) ∧
    (∀ a b : String, statusOrder a ≠ statusOrder b → worse_status a b = worse_status b a) :=
  ⟨worse_status_idem, worse_status_assoc, worse_status_rank_comm,
    worse_status_comm_of_ne_rank⟩

/-- **C6** (witness): the amended commutativity conjunct applied at two
statuses of different ranks. -/
theorem worse_status_algebra_witness :
    worse_status "🔴 配置缺失" "🟡 连接超时" = worse_status "🟡 连接超时" "🔴 配置缺失" :=
  worse_status_algebra.2.2.2 "🔴 配置缺失" "🟡 连接超时" (by decide)

/-! ## C2: severity combination and the diagnosis slot of `apply` -/

/-- **C2** (counterexample): a red row with a non-generic diagnosis receives
an equal-or-better (yellow) incident with a fresh diagnosis; the claim says
the stored diagnosis must be kept, but `apply` overwrites it because the
combined status is non-green. -/
theorem apply_diagnosis_overwrite_cex :
    (let st0 : AggSt := ⟨[("acme/gpt-x",
        ⟨"acme", "gpt-x", "🔴 429 配额/容量限制", "429 配额/容量限制（需等待重置）。"⟩)], [], []⟩
     let st1 := applyF st0 "acme/gpt-x" "🟡 连接超时" "timeout / ETIMEDOUT（窗口内曾出现）。" none
     statusOrder "🟡 连接超时" < statusOrder "🔴 429 配额/容量限制" ∧
     pyStartsWith "429 配额/容量限制（需等待重置）。" "状态稳定" = false ∧
     dictFind st1.matrix "acme/gpt-x"
       = some ⟨"acme", "gpt-x", "🔴 429 配额/容量限制", "timeout / ETIMEDOUT（窗口内曾出现）。"⟩) := by
  decide

/-- **C2** (amended): `apply` keeps the worse of the current and incoming
severities (rank of the result is the max of the ranks), and a nonempty
incoming diagnosis replaces the stored one exactly when the stored
diagnosis is still the generic default *or the combined severity is
non-green*; in particular any non-green (yellow or red) incoming severity
always wins the diagnosis slot. -/
theorem apply_severity_and_diagnosis (st : AggSt) (mid status diagnosis : String)
    (event : Option String) (cur : Row) (hcur : dictFind st.matrix mid = some cur) :
    ∃ row', dictFind (applyF st mid status diagnosis event).matrix mid = some row' ∧
      row'.Status = worse_status cur.Status status ∧
      statusOrder row'.Status = max (statusOrder cur.Status) (statusOrder status) ∧
      row'.Diagnosis = (if diagnosis ≠ "" ∧ (pyStartsWith cur.Diagnosis "状态稳定" = true
          ∨ isGreenHead (worse_status cur.Status status) = false)
        then diagnosis else cur.Diagnosis) ∧
      (2 ≤ statusOrder status → diagnosis ≠ "" → row'.Diagnosis = diagnosis) := by
  have happ := applyF_find_self st mid status diagnosis event
  rw [hcur] at happ
  simp only [Option.getD_some] at happ
  refine ⟨appliedRow cur status diagnosis, happ, rfl, ?_, rfl, ?_⟩
  · exact statusOrder_worse cur.Status status
  · intro hrank hdiag
    have hgreen : isGreenHead (worse_status cur.Status status) = false := by
      apply isGreenHead_false_of_rank
      rw [statusOrder_worse]
      omega
    simp only [appliedRow, if_pos (And.intro hdiag (Or.inr hgreen))]

/-- **C2** (witness): the amended theorem applied at a red row with a
non-generic diagnosis receiving a yellow incident. -/
theorem apply_severity_and_diagnosis_witness :
    ∃ row', dictFind (applyF ⟨[("acme/gpt-x",
        ⟨"acme", "gpt-x", "🔴 429 配额/容量限制", "429 配额/容量限制（需等待重置）。"⟩)], [], []⟩
        "acme/gpt-x" "🟡 连接超时" "timeout / ETIMEDOUT（窗口内曾出现）。" none).matrix "acme/gpt-x"
        = some row' ∧
      row'.Status = worse_status "🔴 429 配额/容量限制" "🟡 连接超时" ∧
      statusOrder row'.Status
        = max (statusOrder "🔴 429 配额/容量限制") (statusOrder "🟡 连接超时") ∧
      row'.Diagnosis = (if ("timeout / ETIMEDOUT（窗口内曾出现）。" : String) ≠ ""
          ∧ (pyStartsWith "429 配额/容量限制（需等待重置）。" "状态稳定" = true
            ∨ isGreenHead (worse_status "🔴 429 配额/容量限制" "🟡 连接超时") = false)
        then "timeout / ETIMEDOUT（窗口内曾出现）。" else "429 配额/容量限制（需等待重置）。") ∧
      (2 ≤ statusOrder "🟡 连接超时" → ("timeout / ETIMEDOUT（窗口内曾出现）。" : String) ≠ "" →
        row'.Diagnosis = "timeout / ETIMEDOUT（窗口内曾出现）。") :=
  apply_severity_and_diagnosis _ "acme/gpt-x" "🟡 连接超时"
    "timeout / ETIMEDOUT（窗口内曾出现）。" none
    ⟨"acme", "gpt-x", "🔴 429 配额/容量限制", "429 配额/容量限制（需等待重置）。"⟩ (by decide)

end HealthFetcher

namespace HealthFetcher

/-! ## `apply_incident` lemmas -/

theorem recordLastF_matrix (ts : Option Int) (st : AggSt) (mid kind : String) :
    (recordLastF ts st mid kind).matrix = st.matrix := by
  unfold recordLastF
  rcases ts with _ | t
  · rfl
  · rcases dictFind st.last_seen mid with _ | prev
    · rfl
    · by_cases h : t > prev.1 <;> simp [h]

theorem recordLastF_events (ts : Option Int) (st : AggSt) (mid kind : String) :
    (recordLastF ts st mid kind).events = st.events := by
  unfold recordLastF
  rcases ts with _ | t
  · rfl
  · rcases dictFind st.last_seen mid with _ | prev
    · rfl
    · by_cases h : t > prev.1 <;> simp [h]

/-! ## C1: activity and the inactive branch of `apply_incident` -/

/-- **C1** (counterexample): a green row whose diagnosis already carries an
earlier (non-generic) breadcrumb receives another inactive incident; the
claim says the diagnosis must be left unchanged because it is no longer the
generic default, but `apply_incident` overwrites it with the new breadcrumb
since the row's *status* is green (line 322 tests the status, not the
diagnosis). -/
theorem apply_incident_inactive_cex :
    (let st0 : AggSt := ⟨[("acme/gpt-x",
        ⟨"acme", "gpt-x", "🟢 健康",
         "最近一次异常: [01:00] cooldown（窗口外/可能已恢复，需验证）"⟩)], [], []⟩
     let st1 := applyIncidentF 1000 (some 0) "02:00" st0 "acme/gpt-x" "timeout"
       "🟡 连接超时" "timeout / ETIMEDOUT（窗口内曾出现）。" (some 10) none
     incidentActive 1000 (some 0) (some 10) = false ∧
     pyStartsWith "最近一次异常: [01:00] cooldown（窗口外/可能已恢复，需验证）" "状态稳定" = false ∧
     dictFind st1.matrix "acme/gpt-x"
       = some ⟨"acme", "gpt-x", "🟢 健康", breadcrumbStr "02:00" "timeout"⟩) := by
  decide

/-- **C1** (amended): an incident is active iff its line's timestamp parsed
and the generation instant is strictly before the sticky-until instant
(which every call site derives as timestamp + window).  When inactive, the
row's severity is left unchanged, and the diagnosis is overwritten with the
breadcrumb exactly when the row's *severity is green* — regardless of
whether its diagnosis is still the generic default or an earlier
breadcrumb; a non-green row is left entirely unchanged. -/
theorem apply_incident_activity (now : Int) (ts : Option Int) (ts_local : String)
    (st : AggSt) (mid kind base_status diagnosis : String) (d : Int)
    (event : Option String) (cur : Row)
    (hcur : dictFind st.matrix mid = some cur) :
    (incidentActive now ts (ts.map (fun t => t + d)) = true
      ↔ ∃ t, ts = some t ∧ now < t + d) ∧
    (incidentActive now ts (ts.map (fun t => t + d)) = false →
      ∃ row', dictFind (applyIncidentF now ts ts_local st mid kind base_status diagnosis
          (ts.map (fun t => t + d)) event).matrix mid = some row' ∧
        row'.Status = cur.Status ∧
        row'.Diagnosis = (if isGreenHead cur.Status then breadcrumbStr ts_local kind
          else cur.Diagnosis)) := by
  constructor
  · rcases ts with _ | t
    · simp [incidentActive]
    · simp [incidentActive]
  · intro hinact
    simp only [applyIncidentF, hinact, Bool.false_eq_true, if_false, recordLastF_matrix,
      hcur, Option.isSome_some, if_true, Option.getD_some]
    by_cases hg : isGreenHead cur.Status = true
    · refine ⟨{ cur with Diagnosis := breadcrumbStr ts_local kind }, ?_, rfl, by rw [if_pos hg]⟩
      rw [if_pos hg]
      rcases event with _ | e
      · exact dictFind_dictSet_self ..
      · dsimp only
        by_cases he : e ≠ ""
        · rw [if_pos he]
          exact dictFind_dictSet_self ..
        · rw [if_neg he]
          exact dictFind_dictSet_self ..
    · have hg' : isGreenHead cur.Status = false := bool_not_true hg
      refine ⟨cur, ?_, rfl, by rw [if_neg (by simpa using hg)]⟩
      rw [if_neg (by simpa using hg)]
      rcases event with _ | e
      · exact hcur
      · dsimp only
        by_cases he : e ≠ ""
        · rw [if_pos he]
          exact hcur
        · rw [if_neg he]
          exact hcur

/-- **C1** (witness): the amended theorem applied to a healthy row and an
incident whose 240-minute window elapsed long before "now" (the spec's
Scenario E shape): the severity stays green and the diagnosis becomes the
breadcrumb. -/
theorem apply_incident_activity_witness :
    (incidentActive 36000000000 (some 0) ((some (0 : Int)).map (fun t => t + 14400000000)) = true
      ↔ ∃ t, (some (0 : Int)) = some t ∧ (36000000000 : Int) < t + 14400000000) ∧
    (incidentActive 36000000000 (some 0) ((some (0 : Int)).map (fun t => t + 14400000000)) = false →
      ∃ row', dictFind (applyIncidentF 36000000000 (some 0) "16:28"
          ⟨[("acme/gpt-x", ⟨"acme", "gpt-x", "🟢 健康", "状态稳定，就绪中。"⟩)], [], []⟩
          "acme/gpt-x" "cooldown" "🟡 瞬时限流" "Cooldown / 瞬时限流（窗口内曾出现）。"
          ((some (0 : Int)).map (fun t => t + 14400000000)) none).matrix "acme/gpt-x"
          = some row' ∧
        row'.Status = "🟢 健康" ∧
        row'.Diagnosis = (if isGreenHead "🟢 健康" then breadcrumbStr "16:28" "cooldown"
          else "状态稳定，就绪中。")) :=
  apply_incident_activity 36000000000 (some 0) "16:28"
    ⟨[("acme/gpt-x", ⟨"acme", "gpt-x", "🟢 健康", "状态稳定，就绪中。"⟩)], [], []⟩
    "acme/gpt-x" "cooldown" "🟡 瞬时限流" "Cooldown / 瞬时限流（窗口内曾出现）。" 14400000000 none
    ⟨"acme", "gpt-x", "🟢 健康", "状态稳定，就绪中。"⟩ (by decide)

end HealthFetcher

namespace HealthFetcher

/-! ## C3: the 429/rate-limit reset policy -/

theorem reset_after_pos (text : String) (d : Int) (raw : String)
    (h : reset_after_from_text text = some (d, raw)) : d ≠ 0 := by
  unfold reset_after_from_text at h
  rcases hm : (resetAfterSearch text.data).orElse (fun _ => quotaResetSearch text.data)
      with _ | afterChars <;> rw [hm] at h
  · simp at h
  · dsimp only at h
    rcases hp : parse_hms_duration (pyStrip ⟨afterChars⟩) with _ | td <;> rw [hp] at h
    · simp at h
    · dsimp only at h
      by_cases hz : td = 0
      · rw [if_pos hz] at h
        simp at h
      · rw [if_neg hz] at h
        simp only [Option.some_inj, Prod.mk.injEq] at h
        intro h0
        rw [h.1] at hz
        exact hz h0

/-- **C3** (confirmed): the policy of source lines 497-521 for a
rate-limit/429/capacity line attributed to a model with a parsed timestamp:
a parsed reset duration ≤ 1 hour yields the yellow 429 status with
sticky-until = timestamp + duration; a parsed duration > 1 hour yields the
red quota/capacity status with sticky-until = timestamp + duration; no
parsed duration yields the yellow 429 status with sticky-until =
timestamp + the configurable rate-limit-sticky window.  (`midBranch` and
`segBranch` pass exactly `rateLimitPolicy` to `apply_incident` in their
429 branch.) -/
theorem rate_limit_policy_correct (rl : Int) (t : Int) (text : String) :
    (∀ d raw, reset_after_from_text text = some (d, raw) → d ≤ tdHours 1 →
      rateLimitPolicy rl (some t) (reset_after_from_text text)
        = ("🟡 429 限流",
           pyStrip ("429 限流（短期/RPM 可能）。" ++ recoveryStr (some (d, raw))),
           some (t + d)) ∧ statusOrder "🟡 429 限流" = 2) ∧
    (∀ d raw, reset_after_from_text text = some (d, raw) → tdHours 1 < d →
      rateLimitPolicy rl (some t) (reset_after_from_text text)
        = ("🔴 429 配额/容量限制",
           pyStrip ("429 配额/容量限制（需等待重置）。" ++ recoveryStr (some (d, raw))),
           some (t + d)) ∧ statusOrder "🔴 429 配额/容量限制" = 3) ∧
    (reset_after_from_text text = none →
      rateLimitPolicy rl (some t) (reset_after_from_text text)
        = ("🟡 429 限流", "429 限流（可能是 RPM/并发）。", some (t + tdMinutes rl))
        ∧ statusOrder "🟡 429 限流" = 2) := by
  refine ⟨?_, ?_, ?_⟩
  · intro d raw hres hle
    have hd : d ≠ 0 := reset_after_pos text d raw hres
    refine ⟨?_, by decide⟩
    unfold rateLimitPolicy
    rw [hres]
    simp only [Option.map_some, Option.getD_some]
    rw [if_pos (by simp [tdTruthy, hd, hle])]
    simp
  · intro d raw hres hlt
    have hd : d ≠ 0 := reset_after_pos text d raw hres
    refine ⟨?_, by decide⟩
    unfold rateLimitPolicy
    rw [hres]
    simp only [Option.map_some, Option.getD_some]
    rw [if_neg (by simp [tdTruthy, hd, not_le.mpr hlt]), if_pos (by simp [tdTruthy, hd])]
    simp
  · intro hres
    refine ⟨?_, by decide⟩
    unfold rateLimitPolicy
    rw [hres]
    simp [tdTruthy, recoveryStr]

/-- **C3** (witness): the three cases of the policy theorem at concrete
lines — a 45-minute reset, a 3-hour reset, and no reset hint. -/
theorem rate_limit_policy_correct_witness :
    (rateLimitPolicy 30 (some 0) (reset_after_from_text "429 reset after 45m")
      = ("🟡 429 限流",
         pyStrip ("429 限流（短期/RPM 可能）。" ++ recoveryStr (some (2700000000, "45m"))),
         some ((0 : Int) + 2700000000)) ∧ statusOrder "🟡 429 限流" = 2) ∧
    (rateLimitPolicy 30 (some 0) (reset_after_from_text "429 reset after 3h")
      = ("🔴 429 配额/容量限制",
         pyStrip ("429 配额/容量限制（需等待重置）。" ++ recoveryStr (some (10800000000, "3h"))),
         some ((0 : Int) + 10800000000)) ∧ statusOrder "🔴 429 配额/容量限制" = 3) ∧
    (rateLimitPolicy 30 (some 0) (reset_after_from_text "plain 429")
      = ("🟡 429 限流", "429 限流（可能是 RPM/并发）。", some ((0 : Int) + tdMinutes 30))
      ∧ statusOrder "🟡 429 限流" = 2) :=
  ⟨(rate_limit_policy_correct 30 0 "429 reset after 45m").1 2700000000 "45m"
      (by decide) (by decide),
   (rate_limit_policy_correct 30 0 "429 reset after 3h").2.1 10800000000 "3h"
      (by decide) (by decide),
   (rate_limit_policy_correct 30 0 "plain 429").2.2 (by decide)⟩

end HealthFetcher

namespace HealthFetcher

/-! ## C9: event de-duplication and the 30-entry cap -/

theorem contains_iff (l : List String) (a : String) : l.contains a = true ↔ a ∈ l := by
  simp

theorem dedup_foldl_eq (l : List String) (seen uniq : List String) :
    (l.foldl (fun p e => if p.1.contains e then p else (p.1 ++ [e], p.2 ++ [e]))
        (seen, uniq)).2
      = uniq ++ dedupRec seen l := by
  induction l generalizing seen uniq with
  | nil => simp [dedupRec]
  | cons e t ih =>
    rw [List.foldl_cons]
    dsimp only
    by_cases hc : seen.contains e = true
    · rw [if_pos hc, ih]
      have hrec : dedupRec seen (e :: t) = dedupRec seen t := by
        simp only [dedupRec, hc, if_true]
      rw [hrec]
    · rw [if_neg hc, ih]
      have hrec : dedupRec seen (e :: t) = e :: dedupRec (seen ++ [e]) t := by
        simp only [dedupRec, bool_not_true hc, Bool.false_eq_true, if_false]
      rw [hrec, List.append_assoc]
      rfl

theorem dedupEvents_eq_dedupRec (l : List String) :
    dedupEvents l = dedupRec [] l := by
  unfold dedupEvents
  rw [dedup_foldl_eq]
  simp

theorem dedupRec_sublist (seen l : List String) : (dedupRec seen l).Sublist l := by
  induction l generalizing seen with
  | nil => simp [dedupRec]
  | cons e t ih =>
    by_cases hc : seen.contains e = true
    · simp only [dedupRec, hc, if_true]
      exact (ih seen).trans (List.sublist_cons_self e t)
    · simp only [dedupRec, hc, Bool.false_eq_true, if_false]
      exact List.Sublist.cons₂ e (ih (seen ++ [e]))

theorem dedupRec_mem (seen l : List String) (a : String) :
    a ∈ dedupRec seen l ↔ a ∈ l ∧ a ∉ seen := by
  induction l generalizing seen with
  | nil => simp [dedupRec]
  | cons e t ih =>
    by_cases hc : seen.contains e = true
    · have he : e ∈ seen := (contains_iff seen e).mp hc
      simp only [dedupRec, hc, if_true, ih, List.mem_cons]
      constructor
      · rintro ⟨h1, h2⟩
        exact ⟨Or.inr h1, h2⟩
      · rintro ⟨h1, h2⟩
        rcases h1 with rfl | h1
        · exact absurd he h2
        · exact ⟨h1, h2⟩
    · have he : e ∉ seen := fun hm => hc ((contains_iff seen e).mpr hm)
      simp only [dedupRec, hc, Bool.false_eq_true, if_false, List.mem_cons, ih]
      constructor
      · rintro (rfl | ⟨h1, h2⟩)
        · exact ⟨Or.inl rfl, he⟩
        · refine ⟨Or.inr h1, fun hs => h2 (List.mem_append_left _ hs)⟩
      · rintro ⟨h1, h2⟩
        by_cases hae : a = e
        · exact Or.inl hae
        · rcases h1 with rfl | h1
          · exact Or.inl rfl
          · refine Or.inr ⟨h1, ?_⟩
            simp [List.mem_append, h2, hae]
    
theorem dedupRec_nodup (seen l : List String) : (dedupRec seen l).Nodup := by
  induction l generalizing seen with
  | nil => simp [dedupRec]
  | cons e t ih =>
    by_cases hc : seen.contains e = true
    · simp only [dedupRec, hc, if_true]
      exact ih seen
    · simp only [dedupRec, hc, Bool.false_eq_true, if_false]
      rw [List.nodup_cons]
      refine ⟨fun hmem => ?_, ih (seen ++ [e])⟩
      have := ((dedupRec_mem (seen ++ [e]) t e).mp hmem).2
      simp at this

theorem dedupRec_seen_ext (l seen₁ seen₂ : List String)
    (h : ∀ x ∈ l, seen₁.contains x = seen₂.contains x) :
    dedupRec seen₁ l = dedupRec seen₂ l := by
  induction l generalizing seen₁ seen₂ with
  | nil => simp [dedupRec]
  | cons e t ih =>
    have he := h e (List.mem_cons_self ..)
    by_cases hc : seen₁.contains e = true
    · simp only [dedupRec, hc, he ▸ hc, if_true]
      exact ih seen₁ seen₂ (fun x hx => h x (List.mem_cons_of_mem _ hx))
    · have hc2 : seen₂.contains e = false := he ▸ bool_not_true hc
      simp only [dedupRec, bool_not_true hc, hc2, Bool.false_eq_true, if_false]
      refine congrArg (e :: ·) (ih _ _ (fun x hx => ?_))
      have hx' := h x (List.mem_cons_of_mem _ hx)
      rcases hm1 : (seen₁ ++ [e]).contains x with _ | _ <;>
        rcases hm2 : (seen₂ ++ [e]).contains x with _ | _
      · rfl
      · exfalso
        have h2 : x ∈ seen₂ ++ [e] := (contains_iff _ _).mp hm2
        have h1 : x ∉ seen₁ ++ [e] := fun hm => by rw [(contains_iff _ _).mpr hm] at hm1; simp at hm1
        rcases List.mem_append.mp h2 with h2a | h2b
        · exact h1 (List.mem_append_left _ ((contains_iff _ _).mp (hx' ▸ (contains_iff _ _).mpr h2a)))
        · exact h1 (List.mem_append_right _ h2b)
      · exfalso
        have h1 : x ∈ seen₁ ++ [e] := (contains_iff _ _).mp hm1
        have h2 : x ∉ seen₂ ++ [e] := fun hm => by rw [(contains_iff _ _).mpr hm] at hm2; simp at hm2
        rcases List.mem_append.mp h1 with h1a | h1b
        · exact h2 (List.mem_append_left _ ((contains_iff _ _).mp (hx' ▸ (contains_iff _ _).mpr h1a)))
        · exact h2 (List.mem_append_right _ h1b)
      · rfl

theorem dedupRec_filter_seen (l : List String) (seen : List String) (e : String)
    (he : seen.contains e = true) :
    dedupRec seen l = dedupRec seen (l.filter (fun x => !(x == e))) := by
  induction l generalizing seen with
  | nil => simp [dedupRec]
  | cons x t ih =>
    by_cases hxe : (x == e) = true
    · have hx : x = e := by simpa using hxe
      rw [List.filter_cons, if_neg (by simp [hxe])]
      simp only [dedupRec, hx, he, if_true]
      exact ih seen he
    · rw [List.filter_cons, if_pos (by simp [hxe])]
      by_cases hc : seen.contains x = true
      · simp only [dedupRec, hc, if_true]
        exact ih seen he
      · simp only [dedupRec, bool_not_true hc, Bool.false_eq_true, if_false]
        refine congrArg (x :: ·) (ih (seen ++ [x]) ?_)
        rcases hm : (seen ++ [x]).contains e with _ | _
        · exfalso
          have : e ∉ seen ++ [x] := fun hmm => by
            rw [(contains_iff _ _).mpr hmm] at hm
            simp at hm
          exact this (List.mem_append_left _ ((contains_iff _ _).mp he))
        · rfl

end HealthFetcher

namespace HealthFetcher

/-- **C9** (confirmed): the event timeline returned by `parse_llm_status`
is the de-duplicated event list (exact string equality, first occurrence
kept, order preserved — a sublist of the accumulated events with no
repeats) capped to the most recent 30 entries after de-duplication (a
suffix of the de-duplicated list of length at most 30); de-duplication
keeps first occurrences: dropping a head's later duplicates commutes with
the loop. -/
theorem events_dedup_cap (cfg : Cfg) (lines : List String) :
    (parse_llm_status cfg lines).2
      = pyLastN 30 (dedupEvents ((lines.foldl (processLine cfg) (initSt cfg)).events)) ∧
    ((parse_llm_status cfg lines).2).Nodup ∧
    ((parse_llm_status cfg lines).2).Sublist
      ((lines.foldl (processLine cfg) (initSt cfg)).events) ∧
    ((parse_llm_status cfg lines).2).length ≤ 30 ∧
    (parse_llm_status cfg lines).2
      <:+ dedupEvents ((lines.foldl (processLine cfg) (initSt cfg)).events) ∧
    (∀ (e : String) (l : List String),
      dedupEvents (e :: l) = e :: dedupEvents (l.filter (fun x => !(x == e)))) := by
  have h0 : (parse_llm_status cfg lines).2
      = pyLastN 30 (dedupEvents ((lines.foldl (processLine cfg) (initSt cfg)).events)) := rfl
  set ev := (lines.foldl (processLine cfg) (initSt cfg)).events with hev
  have hsub1 : (pyLastN 30 (dedupEvents ev)).Sublist (dedupEvents ev) :=
    List.drop_sublist _ _
  have hsub2 : (dedupEvents ev).Sublist ev := by
    rw [dedupEvents_eq_dedupRec]
    exact dedupRec_sublist [] ev
  have hnodup : (dedupEvents ev).Nodup := by
    rw [dedupEvents_eq_dedupRec]
    exact dedupRec_nodup [] ev
  refine ⟨h0, ?_, ?_, ?_, ?_, ?_⟩
  · rw [h0]
    exact List.Nodup.sublist hsub1 hnodup
  · rw [h0]
    exact hsub1.trans hsub2
  · rw [h0]
    unfold pyLastN
    rw [List.length_drop]
    omega
  · rw [h0]
    exact List.drop_suffix _ _
  · intro e l
    rw [dedupEvents_eq_dedupRec, dedupEvents_eq_dedupRec]
    have h1 : dedupRec [] (e :: l) = e :: dedupRec [e] l := by
      simp only [dedupRec, List.contains_nil, Bool.false_eq_true, if_false]
      rfl
    rw [h1]
    refine congrArg (e :: ·) ?_
    have he : ([e] : List String).contains e = true := by simp
    rw [dedupRec_filter_seen l [e] e he]
    refine dedupRec_seen_ext _ _ _ (fun x hx => ?_)
    have hxe : (x == e) = false := by
      have := (List.mem_filter.mp hx).2
      simpa using this
    have hne : ¬ x = e := by simpa using hxe
    simp [List.contains_cons, hxe, hne]

end HealthFetcher

namespace HealthFetcher

/-! ## C7: provider-scoped missing-credential fan-out -/

theorem nkFold_other (models : List ModelRef) (p : String) (stX : AggSt) (mid : String)
    (h : ∀ m ∈ models, m.provider = p → m.model_id ≠ mid) :
    dictFind ((models.foldl (fun st m => if m.provider != p then st
        else applyF st m.model_id "🔴 配置缺失" "未配置 API key（provider 认证失败）。" none)
        stX)).matrix mid
      = dictFind stX.matrix mid := by
  induction models generalizing stX with
  | nil => rfl
  | cons m t ih =>
    rw [List.foldl_cons]
    by_cases hp : m.provider = p
    · rw [if_neg (by simp [hp])]
      rw [ih _ (fun m' hm' => h m' (List.mem_cons_of_mem _ hm'))]
      exact applyF_find_other stX m.model_id _ _ none mid
        (fun he => h m (List.mem_cons_self ..) hp he.symm)
    · rw [if_pos (by simp [hp])]
      exact ih stX (fun m' hm' => h m' (List.mem_cons_of_mem _ hm'))

/-- The red missing-credential row property established by the no-API-key
fan-out. -/
def RedCredRow (stX : AggSt) (mid : String) : Prop :=
  ∃ row', dictFind stX.matrix mid = some row' ∧ statusOrder row'.Status = 3 ∧
    row'.Diagnosis = "未配置 API key（provider 认证失败）。"

theorem applyF_redcred (stX : AggSt) (mid : String) :
    RedCredRow (applyF stX mid "🔴 配置缺失" "未配置 API key（provider 认证失败）。" none) mid := by
  refine ⟨_, applyF_find_self stX mid _ _ none, ?_, ?_⟩
  · simp only [appliedRow]
    rw [statusOrder_worse]
    have h1 := statusOrder_le_three
      ((dictFind stX.matrix mid).getD (defaultRow mid)).Status
    have h2 : statusOrder "🔴 配置缺失" = 3 := by decide
    omega
  · simp only [appliedRow]
    rw [if_pos]
    refine ⟨by decide, Or.inr ?_⟩
    apply isGreenHead_false_of_rank
    rw [statusOrder_worse]
    have h1 := statusOrder_le_three
      ((dictFind stX.matrix mid).getD (defaultRow mid)).Status
    have h2 : statusOrder "🔴 配置缺失" = 3 := by decide
    omega

theorem nkFold_preserves (models : List ModelRef) (p : String) (stX : AggSt) (mid : String)
    (h : RedCredRow stX mid) :
    RedCredRow ((models.foldl (fun st m => if m.provider != p then st
        else applyF st m.model_id "🔴 配置缺失" "未配置 API key（provider 认证失败）。" none)
        stX)) mid := by
  induction models generalizing stX with
  | nil => exact h
  | cons m t ih =>
    rw [List.foldl_cons]
    by_cases hp : m.provider = p
    · rw [if_neg (by simp [hp])]
      refine ih _ ?_
      by_cases hmid : m.model_id = mid
      · subst hmid
        exact applyF_redcred stX m.model_id
      · obtain ⟨row', hr, h3, hd⟩ := h
        exact ⟨row', by rw [applyF_find_other stX m.model_id _ _ none mid
          (fun he => hmid he.symm)]; exact hr, h3, hd⟩
    · rw [if_pos (by simp [hp])]
      exact ih stX h

theorem nkFold_provider (models : List ModelRef) (p : String) (stX : AggSt)
    (m : ModelRef) (hm : m ∈ models) (hp : m.provider = p) :
    RedCredRow ((models.foldl (fun st m => if m.provider != p then st
        else applyF st m.model_id "🔴 配置缺失" "未配置 API key（provider 认证失败）。" none)
        stX)) m.model_id := by
  induction models generalizing stX with
  | nil => exact absurd hm (List.not_mem_nil m)
  | cons m0 t ih =>
    rw [List.foldl_cons]
    rcases List.mem_cons.mp hm with rfl | hm'
    · rw [if_neg (by simp [hp])]
      exact nkFold_preserves t p _ m.model_id (applyF_redcred stX m.model_id)
    · exact ih _ hm'

/-- **C7** (confirmed): for a line matching the no-API-key pattern for
provider `p` (not agent-filtered, and not an aggregate-failure line, which
short-circuits everything else), exactly the configured models whose
provider equals `p` end up with a red (rank 3) missing-credential row —
applied unconditionally, with no dependence on the line's timestamp or the
generation instant — and the row of any model id not belonging to a
provider-`p` configured model is untouched by the line. -/
theorem no_api_key_marks_provider (cfg : Cfg) (st : AggSt) (line : String)
    (pChars : List Char)
    (hlane : laneDrop line = false) (hdir : dirDrop line = false)
    (hamf : allModelsFailedSearch line.data = none)
    (hnk : noApiKeySearch line.data = some pChars) :
    (∀ m : ModelRef, m ∈ cfg.models → m.provider = String.mk pChars →
      ∃ row', dictFind (processLine cfg st line).matrix m.model_id = some row' ∧
        statusOrder row'.Status = 3 ∧
        row'.Diagnosis = "未配置 API key（provider 认证失败）。") ∧
    (∀ mid : String, (∀ m : ModelRef, m ∈ cfg.models → m.provider = String.mk pChars →
        m.model_id ≠ mid) →
      dictFind (processLine cfg st line).matrix mid = dictFind st.matrix mid) := by
  have hred : processLine cfg st line
      = nkBranch cfg (tsLocalOf cfg line) st (String.mk pChars) := by
    simp only [processLine, hlane, hdir, Bool.or_self, Bool.false_eq_true, if_false, hamf,
      hnk]
  constructor
  · intro m hm hp
    rw [hred]
    simp only [nkBranch]
    exact nkFold_provider cfg.models (String.mk pChars) _ m hm hp
  · intro mid hmid
    rw [hred]
    simp only [nkBranch]
    exact nkFold_other cfg.models (String.mk pChars) _ mid hmid

end HealthFetcher

namespace HealthFetcher

/-- **C7** (witness): the spec's Scenario C — a no-API-key line for
provider `acme` with two configured `acme` models and one model under
another provider. -/
theorem no_api_key_marks_provider_witness :
    (let cfg : Cfg := ⟨[⟨"acme/gpt-x", "acme", "gpt-x"⟩, ⟨"acme/gpt-y", "acme", "gpt-y"⟩,
        ⟨"other/z", "other", "z"⟩], fun _ => "10:00", 0, 240, 30⟩
     let st : AggSt := ⟨[], [], []⟩
     let line := "No API key found for provider \"acme\""
     (∀ m : ModelRef, m ∈ cfg.models → m.provider = String.mk ['a', 'c', 'm', 'e'] →
       ∃ row', dictFind (processLine cfg st line).matrix m.model_id = some row' ∧
         statusOrder row'.Status = 3 ∧
         row'.Diagnosis = "未配置 API key（provider 认证失败）。") ∧
     (∀ mid : String, (∀ m : ModelRef, m ∈ cfg.models → m.provider = String.mk ['a', 'c', 'm', 'e'] →
         m.model_id ≠ mid) →
       dictFind (processLine cfg st line).matrix mid = dictFind st.matrix mid)) :=
  no_api_key_marks_provider
    ⟨[⟨"acme/gpt-x", "acme", "gpt-x"⟩, ⟨"acme/gpt-y", "acme", "gpt-y"⟩,
      ⟨"other/z", "other", "z"⟩], fun _ => "10:00", 0, 240, 30⟩
    ⟨[], [], []⟩ "No API key found for provider \"acme\"" ['a', 'c', 'm', 'e']
    (by decide) (by decide) (by decide) (by decide)

end HealthFetcher

namespace HealthFetcher

/-! ## C5: watchdog self-heal attribution -/

/-- **C5** (confirmed): every surviving merged restart record whose
timestamp is within 120 seconds of some watchdog `gateway_restart` audit
timestamp is emitted with the watchdog self-heal reason, regardless of the
reason it carried before — the relabel is a final pass over the merged
list, so it overrides the crash relabel of the merge phase. -/
theorem watchdog_relabel (tzFmt : Int → String) (lines : List String)
    (wds : List WdEvent) (i : Nat) (ts : Int) (reason : String)
    (hi : (mergeRestarts (sortRestartsDesc (restartCandidates lines))).get? i
        = some (ts, reason))
    (hw : ∃ w ∈ wdRestartTimes wds, |w - ts| ≤ 120 * usPerSec) :
    (analyze_restarts tzFmt lines wds).get? i
      = some ⟨tzFmt ts, "Watchdog 自愈触发"⟩ := by
  unfold analyze_restarts
  rw [List.get?_eq_getElem?, List.getElem?_map, ← List.get?_eq_getElem?, hi]
  have hany : (wdRestartTimes wds).any (fun w => withinSecs w ts 120) = true := by
    rw [List.any_eq_true]
    obtain ⟨w, hw1, hw2⟩ := hw
    exact ⟨w, hw1, by simpa [withinSecs] using hw2⟩
  dsimp only [Option.map]
  rw [if_pos hany]

/-- **C5** (witness): a SIGTERM restart record 90 seconds before a watchdog
`gateway_restart` audit stamp is relabelled as watchdog self-heal even
though its original reason was the SIGTERM one. -/
theorem watchdog_relabel_witness :
    (analyze_restarts (fun _ => "00:00")
        ["2026-01-01T00:00:00Z received sigterm; shutting down"]
        [⟨some "gateway_restart", some "2026-01-01T00:01:30Z"⟩]).get? 0
      = some ⟨(fun (_ : Int) => "00:00") 1767225600000000, "Watchdog 自愈触发"⟩ :=
  watchdog_relabel (fun _ => "00:00")
    ["2026-01-01T00:00:00Z received sigterm; shutting down"]
    [⟨some "gateway_restart", some "2026-01-01T00:01:30Z"⟩] 0
    1767225600000000 "系统/服务重启 (SIGTERM)" (by decide)
    ⟨1767225690000000, by decide, by decide⟩

end HealthFetcher

namespace HealthFetcher

/-! ## C4: the 90-second restart merge -/

theorem mem_of_getLast?' {α : Type} (l : List α) (a : α) (h : l.getLast? = some a) :
    a ∈ l := by
  induction l with
  | nil => simp at h
  | cons x t ih =>
    rcases t with _ | ⟨y, ys⟩
    · simp at h
      simp [h]
    · rw [List.getLast?_cons_cons] at h
      exact List.mem_cons_of_mem _ (ih h)

theorem eq_dropLast_append {α : Type} (l : List α) (a : α) (h : l.getLast? = some a) :
    l = l.dropLast ++ [a] := by
  induction l with
  | nil => simp at h
  | cons x t ih =>
    rcases t with _ | ⟨y, ys⟩
    · simp at h
      simp [h]
    · rw [List.getLast?_cons_cons] at h
      rw [List.dropLast_cons₂, List.cons_append]
      exact congrArg (x :: ·) (ih h)

theorem getLast?_none {α : Type} (l : List α) (h : l.getLast? = none) : l = [] := by
  rcases l with _ | ⟨x, t⟩
  · rfl
  · exfalso
    induction t generalizing x with
    | nil => simp at h
    | cons y ys ih =>
      rw [List.getLast?_cons_cons] at h
      exact ih y h

theorem getLast_least {S : Int → Int → Prop} (l : List Int) (lastT : Int)
    (hp : l.Pairwise S) (hl : l.getLast? = some lastT) :
    ∀ a ∈ l, a = lastT ∨ S a lastT := by
  induction l with
  | nil => simp at hl
  | cons x t ih =>
    intro a ha
    rcases t with _ | ⟨y, ys⟩
    · simp at hl
      rcases List.mem_singleton.mp ha with rfl
      exact Or.inl hl
    · rw [List.getLast?_cons_cons] at hl
      rcases List.mem_cons.mp ha with rfl | ha'
      · exact Or.inr ((List.pairwise_cons.mp hp).1 lastT
          (mem_of_getLast?' _ _ hl))
      · exact ih (List.pairwise_cons.mp hp).2 hl a ha'

theorem mergeRestarts_go (rs : List (Int × String)) (merged : List (Int × String))
    (hsorted : rs.Pairwise (fun a b => b.1 ≤ a.1))
    (hmerged : (merged.map (fun p => p.1)).Pairwise (fun a b => b + 90 * usPerSec < a))
    (hlink : ∀ r ∈ rs, ∀ lastT, (merged.map (fun p => p.1)).getLast? = some lastT →
      r.1 ≤ lastT) :
    ((rs.foldl mergeStep merged).map (fun p => p.1)).Pairwise
      (fun a b => b + 90 * usPerSec < a) ∧
    (∀ x ∈ rs, ∃ k ∈ (rs.foldl mergeStep merged).map (fun p => p.1),
      x.1 ≤ k ∧ k - x.1 ≤ 90 * usPerSec) ∧
    (∀ k ∈ merged.map (fun p => p.1), k ∈ (rs.foldl mergeStep merged).map (fun p => p.1)) := by
  induction rs generalizing merged with
  | nil => exact ⟨hmerged, by simp, fun k hk => hk⟩
  | cons c rest ih =>
    rw [List.foldl_cons]
    obtain ⟨hc_rest, hsorted'⟩ := List.pairwise_cons.mp hsorted
    rcases hml : merged.getLast? with _ | last
    · -- merged = [], the candidate opens a fresh record
      have hnil : merged = [] := getLast?_none merged hml
      subst hnil
      have hstep : mergeStep [] c = [c] := rfl
      rw [hstep]
      have hlink1 : ∀ r ∈ rest, ∀ lastT,
          (([c] : List (Int × String)).map (fun p => p.1)).getLast? = some lastT →
          r.1 ≤ lastT := by
        intro r hr lastT hl
        simp at hl
        rw [← hl]
        exact hc_rest r hr
      obtain ⟨p1, p2, p3⟩ := ih [c] hsorted' (by simp) hlink1
      refine ⟨p1, ?_, by simp⟩
      intro x hx
      rcases List.mem_cons.mp hx with rfl | hx'
      · exact ⟨x.1, p3 x.1 (by simp), le_refl _, by simp only [usPerSec]; omega⟩
      · exact p2 x hx'
    · -- merged ends with `last`
      have hlastT : (merged.map (fun p => p.1)).getLast? = some last.1 := by
        rw [List.getLast?_map, hml]
        rfl
      have hcle : c.1 ≤ last.1 := hlink c (List.mem_cons_self ..) last.1 hlastT
      by_cases hw : withinSecs last.1 c.1 90 = true
      · -- dropped into the kept record (possibly overwriting its reason)
        have habs : |last.1 - c.1| ≤ 90 * usPerSec := by
          simpa [withinSecs] using hw
        have hdiff : last.1 - c.1 ≤ 90 * usPerSec := le_trans (le_abs_self _) habs
        have hstep : (mergeStep merged c).map (fun p => p.1)
            = merged.map (fun p => p.1) := by
          simp only [mergeStep, hml, hw, if_true]
          by_cases hcrash : pyContains c.2 "异常" = true
          · rw [if_pos hcrash]
            conv_rhs => rw [eq_dropLast_append merged last hml]
            simp
          · rw [if_neg hcrash]
      -- the invariant is untouched: same time list
        obtain ⟨p1, p2, p3⟩ := ih (mergeStep merged c) hsorted'
          (by rw [hstep]; exact hmerged)
          (by
            intro r hr lastT hl
            rw [hstep] at hl
            exact hlink r (List.mem_cons_of_mem _ hr) lastT hl)
        refine ⟨p1, ?_, fun k hk => p3 k (by rw [hstep]; exact hk)⟩
        intro x hx
        rcases List.mem_cons.mp hx with rfl | hx'
        · refine ⟨last.1, p3 last.1 (by rw [hstep]; exact mem_of_getLast?' _ _ hlastT), hcle, ?_⟩
          omega
        · exact p2 x hx'
      · -- kept as a fresh record
        have habs : ¬ |last.1 - c.1| ≤ 90 * usPerSec := by
          simpa [withinSecs] using hw
        have hgap : c.1 + 90 * usPerSec < last.1 := by
          rw [abs_of_nonneg (by omega)] at habs
          omega
        have hstep : mergeStep merged c = merged ++ [c] := by
          simp only [mergeStep, hml, hw]
          rfl
        have htimes : (merged ++ [c]).map (fun p => p.1)
            = merged.map (fun p => p.1) ++ [c.1] := by simp
        have hpair : ((merged ++ [c]).map (fun p => p.1)).Pairwise
            (fun a b => b + 90 * usPerSec < a) := by
          rw [htimes, List.pairwise_append]
          refine ⟨hmerged, by simp, ?_⟩
          intro a ha b hb
          rcases List.mem_singleton.mp hb with rfl
          rcases getLast_least (merged.map (fun p => p.1)) last.1 hmerged hlastT a ha
            with rfl | hgt
          · exact hgap
          · omega
        have hlink1 : ∀ r ∈ rest, ∀ lastT,
            ((merged ++ [c]).map (fun p => p.1)).getLast? = some lastT → r.1 ≤ lastT := by
          intro r hr lastT hl
          rw [htimes, List.getLast?_concat] at hl
          rcases Option.some_inj.mp hl with rfl
          exact hc_rest r hr
        rw [hstep]
        obtain ⟨p1, p2, p3⟩ := ih (merged ++ [c]) hsorted' hpair hlink1
        refine ⟨p1, ?_, ?_⟩
        · intro x hx
          rcases List.mem_cons.mp hx with rfl | hx'
          · refine ⟨x.1, p3 x.1 (by rw [htimes]; simp), le_refl _, ?_⟩
            simp only [usPerSec]
            omega
          · exact p2 x hx'
        · intro k hk
          exact p3 k (by rw [htimes]; exact List.mem_append_left _ hk)

end HealthFetcher

namespace HealthFetcher

/-- **C4** (counterexample): three candidate restarts at T, T+80 s and
T+160 s.  The pairs (T, T+80) and (T+80, T+160) are each ≤ 90 s apart, yet
the merge keeps two records (T+160 absorbing T+80, and T alone), so two
candidates ≤ 90 s apart (T and T+80) do *not* end up collapsed into one
record — the claim's "always collapse" direction fails on chains. -/
theorem restart_merge_pairwise_cex :
    (let lines := ["2026-01-01T00:00:00Z received sigterm; shutting down",
                   "2026-01-01T00:01:20Z received sigterm; shutting down",
                   "2026-01-01T00:02:40Z received sigterm; shutting down"]
     (restartCandidates lines).map (fun p => p.1)
        = [1767225600000000, 1767225680000000, 1767225760000000] ∧
     ((1767225680000000 : Int) - 1767225600000000 ≤ 90 * usPerSec) ∧
     ((1767225760000000 : Int) - 1767225680000000 ≤ 90 * usPerSec) ∧
     (mergeRestarts (sortRestartsDesc (restartCandidates lines))).map (fun p => p.1)
        = [1767225760000000, 1767225600000000]) := by
  decide

/-- **C4** (amended): candidates are sorted descending and a candidate
within 90 s of the previously kept record is dropped into it, so: (i) the
surviving records' timestamps are pairwise more than 90 s apart; (ii) every
candidate lies within the 90-second window at or below exactly one
surviving record (its record); and therefore (iii) two candidates sharing a
record are themselves ≤ 90 s apart — two candidates more than 90 s apart
never collapse into one record.  Two candidates ≤ 90 s apart may still end
in different records when chained merging anchors them to different kept
records. -/
theorem restart_merge_windows (lines : List String) :
    ((mergeRestarts (sortRestartsDesc (restartCandidates lines))).map
        (fun p => p.1)).Pairwise (fun a b => b + 90 * usPerSec < a) ∧
    (∀ c ∈ restartCandidates lines,
      ∃ k ∈ (mergeRestarts (sortRestartsDesc (restartCandidates lines))).map (fun p => p.1),
        c.1 ≤ k ∧ k - c.1 ≤ 90 * usPerSec) ∧
    (∀ t t' k : Int, t ≤ k → k - t ≤ 90 * usPerSec → t' ≤ k → k - t' ≤ 90 * usPerSec →
      |t - t'| ≤ 90 * usPerSec) := by
  haveI : IsTotal (Int × String) (fun a b => b.1 ≤ a.1) := ⟨fun a b => le_total b.1 a.1⟩
  haveI : IsTrans (Int × String) (fun a b => b.1 ≤ a.1) :=
    ⟨fun a b c hab hbc => le_trans hbc hab⟩
  have hperm := List.perm_insertionSort
    (fun (a b : Int × String) => b.1 ≤ a.1) (restartCandidates lines)
  have hsorted : (sortRestartsDesc (restartCandidates lines)).Pairwise
      (fun a b => b.1 ≤ a.1) :=
    List.sorted_insertionSort _ _
  obtain ⟨p1, p2, p3⟩ := mergeRestarts_go (sortRestartsDesc (restartCandidates lines)) []
    hsorted (by simp) (by simp)
  refine ⟨p1, ?_, ?_⟩
  · intro c hc
    exact p2 c (hperm.mem_iff.mpr hc)
  · intro t t' k h1 h2 h3 h4
    rw [abs_le]
    omega

/-- **C4** (witness): the window-assignment conjunct applied to two SIGTERM
candidates 30 s apart (the spec's Scenario D first pair). -/
theorem restart_merge_windows_witness :
    ∃ k ∈ (mergeRestarts (sortRestartsDesc (restartCandidates
        ["2026-01-01T00:00:00Z received sigterm; shutting down",
         "2026-01-01T00:00:30Z received sigterm; shutting down"]))).map (fun p => p.1),
      (1767225600000000 : Int) ≤ k ∧ k - 1767225600000000 ≤ 90 * usPerSec :=
  (restart_merge_windows
      ["2026-01-01T00:00:00Z received sigterm; shutting down",
       "2026-01-01T00:00:30Z received sigterm; shutting down"]).2.1
    (1767225600000000, "系统/服务重启 (SIGTERM)") (by decide)

end HealthFetcher

namespace HealthFetcher

/-! ## C10: severity monotonicity lemmas -/

theorem matrixMono_refl (st : AggSt) : MatrixMono st st :=
  fun _ row h => ⟨row, h, le_refl _⟩

theorem matrixMono_trans {s1 s2 s3 : AggSt} (h12 : MatrixMono s1 s2)
    (h23 : MatrixMono s2 s3) : MatrixMono s1 s3 := by
  intro mid row h
  obtain ⟨r2, h2, le2⟩ := h12 mid row h
  obtain ⟨r3, h3, le3⟩ := h23 mid r2 h2
  exact ⟨r3, h3, le_trans le2 le3⟩

theorem matrixMono_of_eq (s1 s2 : AggSt) (h : s2.matrix = s1.matrix) :
    MatrixMono s1 s2 := by
  intro mid row h0
  refine ⟨row, ?_, le_refl _⟩
  rw [h]
  exact h0

theorem applyF_mono (st : AggSt) (mid status diagnosis : String) (event : Option String) :
    MatrixMono st (applyF st mid status diagnosis event) := by
  intro mid0 row h0
  by_cases hmid : mid0 = mid
  · subst hmid
    refine ⟨_, applyF_find_self st mid0 status diagnosis event, ?_⟩
    simp only [appliedRow, h0, Option.getD_some]
    rw [statusOrder_worse]
    exact le_max_left _ _
  · refine ⟨row, ?_, le_refl _⟩
    rw [applyF_find_other st mid status diagnosis event mid0 hmid]
    exact h0

theorem matrixMono_set_new (st : AggSt) (k : String) (v : Row)
    (h : dictFind st.matrix k = none) :
    MatrixMono st { st with matrix := dictSet st.matrix k v } := by
  intro mid0 row h0
  have hne : mid0 ≠ k := by
    intro he
    rw [he, h] at h0
    exact Option.noConfusion h0
  refine ⟨row, ?_, le_refl _⟩
  dsimp only
  rw [dictFind_dictSet_other _ _ _ _ hne]
  exact h0

theorem applyIncidentF_mono (now : Int) (ts : Option Int) (ts_local : String) (st : AggSt)
    (mid kind bs diag : String) (su : Option Int) (ev : Option String) :
    MatrixMono st (applyIncidentF now ts ts_local st mid kind bs diag su ev) := by
  have hwrap : ∀ (stY : AggSt), MatrixMono st stY →
      MatrixMono st (recordLastF ts stY mid kind) := by
    intro stY hY mid0 row h0
    obtain ⟨r, hr, hle⟩ := hY mid0 row h0
    refine ⟨r, ?_, hle⟩
    rw [recordLastF_matrix]
    exact hr
  simp only [applyIncidentF]
  apply hwrap
  by_cases hact : incidentActive now ts su = true
  · rw [if_pos hact]
    exact applyF_mono st mid bs diag ev
  · rw [if_neg hact]
    have hev : ∀ stB : AggSt, MatrixMono st stB →
        MatrixMono st (match ev with
          | some e => if e ≠ "" then { stB with events := stB.events ++ [e] } else stB
          | none => stB) := by
      intro stB hB
      rcases ev with _ | e
      · exact hB
      · dsimp only
        by_cases he : e ≠ ""
        · rw [if_pos he]
          intro mid0 row h0
          obtain ⟨r, hr, hle⟩ := hB mid0 row h0
          exact ⟨r, hr, hle⟩
        · rw [if_neg he]
          exact hB
    apply hev
    by_cases hf : (dictFind st.matrix mid).isSome = true
    · rw [if_pos hf]
      by_cases hg : isGreenHead ((dictFind st.matrix mid).getD (defaultRow mid)).Status = true
      · rw [if_pos hg]
        intro mid0 row h0
        by_cases hmid : mid0 = mid
        · subst hmid
          refine ⟨_, dictFind_dictSet_self .., ?_⟩
          simp only [h0, Option.getD_some]
          exact le_refl _
        · refine ⟨row, ?_, le_refl _⟩
          dsimp only
          rw [dictFind_dictSet_other _ _ _ _ hmid]
          exact h0
      · rw [if_neg hg]
        exact matrixMono_refl st
    · rw [if_neg hf]
      have hnone : dictFind st.matrix mid = none := by
        rcases he : dictFind st.matrix mid with _ | v
        · rfl
        · rw [he] at hf
          simp at hf
      intro mid0 row h0
      have hne : mid0 ≠ mid := by
        intro he
        rw [he, hnone] at h0
        exact Option.noConfusion h0
      have hA : dictFind (applyF st mid "🟢 健康" "状态稳定，就绪中。" none).matrix mid0
          = some row := by
        rw [applyF_find_other st mid _ _ none mid0 hne]
        exact h0
      by_cases hg : isGreenHead (((dictFind (applyF st mid "🟢 健康" "状态稳定，就绪中。"
          none).matrix mid).getD (defaultRow mid))).Status = true
      · rw [if_pos hg]
        refine ⟨row, ?_, le_refl _⟩
        dsimp only
        rw [dictFind_dictSet_other _ _ _ _ hne]
        exact hA
      · rw [if_neg hg]
        exact ⟨row, hA, le_refl _⟩

theorem foldl_mono {β : Type} (step : AggSt → β → AggSt)
    (hstep : ∀ st x, MatrixMono st (step st x)) (l : List β) (st : AggSt) :
    MatrixMono st (l.foldl step st) := by
  induction l generalizing st with
  | nil => exact matrixMono_refl st
  | cons x t ih =>
    rw [List.foldl_cons]
    exact matrixMono_trans (hstep st x) (ih (step st x))

theorem foldl_mono_add_events {β : Type} (step : AggSt → β → AggSt)
    (hstep : ∀ st x, MatrixMono st (step st x)) (l : List β) (st : AggSt)
    (es : List String) :
    MatrixMono st (l.foldl step { st with events := st.events ++ es }) :=
  matrixMono_trans
    (matrixMono_of_eq st { st with events := st.events ++ es } rfl)
    (foldl_mono step hstep l { st with events := st.events ++ es })

end HealthFetcher

namespace HealthFetcher

theorem segBranch_mono (cfg : Cfg) (ts : Option Int) (ts_local : String) (st : AggSt)
    (mid msg : String) : MatrixMono st (segBranch cfg ts ts_local st mid msg) := by
  simp only [segBranch]
  split
  · exact applyIncidentF_mono _ _ _ _ _ _ _ _ _ _
  · split
    · exact applyIncidentF_mono _ _ _ _ _ _ _ _ _ _
    · split
      · exact applyIncidentF_mono _ _ _ _ _ _ _ _ _ _
      · split
        · exact applyIncidentF_mono _ _ _ _ _ _ _ _ _ _
        · exact matrixMono_refl st

theorem midBranch_mono (cfg : Cfg) (ts : Option Int) (ts_local : String)
    (line lowered : String) (st : AggSt) (mid : String) :
    MatrixMono st (midBranch cfg ts ts_local line lowered st mid) := by
  simp only [midBranch]
  by_cases hf : (dictFind st.matrix mid).isSome = true
  · rw [if_pos hf]
    split
    · exact applyIncidentF_mono _ _ _ _ _ _ _ _ _ _
    · split
      · exact applyIncidentF_mono _ _ _ _ _ _ _ _ _ _
      · split
        · exact applyIncidentF_mono _ _ _ _ _ _ _ _ _ _
        · split
          · exact applyIncidentF_mono _ _ _ _ _ _ _ _ _ _
          · exact matrixMono_refl st
  · rw [if_neg hf]
    have hnone : dictFind st.matrix mid = none := by
      rcases he : dictFind st.matrix mid with _ | v
      · rfl
      · rw [he] at hf
        simp at hf
    refine matrixMono_trans (matrixMono_set_new st mid (defaultRow mid) hnone) ?_
    split
    · exact applyIncidentF_mono _ _ _ _ _ _ _ _ _ _
    · split
      · exact applyIncidentF_mono _ _ _ _ _ _ _ _ _ _
      · split
        · exact applyIncidentF_mono _ _ _ _ _ _ _ _ _ _
        · split
          · exact applyIncidentF_mono _ _ _ _ _ _ _ _ _ _
          · exact matrixMono_refl _

theorem amfBranch_mono (cfg : Cfg) (ts : Option Int) (ts_local : String) (st : AggSt)
    (body : List Char) : MatrixMono st (amfBranch cfg ts ts_local st body) := by
  simp only [amfBranch]
  refine foldl_mono _ (fun st1 x => ?_) _ st
  dsimp only
  split
  · exact matrixMono_refl st1
  · split
    · exact matrixMono_refl st1
    · exact segBranch_mono _ _ _ _ _ _

theorem nkBranch_mono (cfg : Cfg) (ts_local : String) (st : AggSt) (p : String) :
    MatrixMono st (nkBranch cfg ts_local st p) := by
  simp only [nkBranch]
  refine foldl_mono_add_events _ (fun st1 m => ?_) _ st _
  dsimp only
  split
  · exact matrixMono_refl st1
  · exact applyF_mono _ _ _ _ _

theorem cpBranch_mono (cfg : Cfg) (ts : Option Int) (ts_local : String) (st : AggSt)
    (p : String) : MatrixMono st (cpBranch cfg ts ts_local st p) := by
  simp only [cpBranch]
  refine foldl_mono_add_events _ (fun st1 m => ?_) _ st _
  dsimp only
  split
  · exact matrixMono_refl st1
  · exact applyIncidentF_mono _ _ _ _ _ _ _ _ _ _

theorem umBranch_mono (ts_local : String) (st : AggSt) (mid : String) :
    MatrixMono st (umBranch ts_local st mid) := by
  simp only [umBranch]
  refine matrixMono_trans (matrixMono_of_eq st
    { st with events := st.events
        ++ ["[" ++ ts_local ++ "] model=" ++ mid ++ ": Unknown/Not allowed"] } rfl) ?_
  split
  · next heq =>
    refine matrixMono_set_new _ _ _ ?_
    rcases he : dictFind st.matrix mid with _ | v
    · rfl
    · rw [show dictFind _ mid = some v from he] at heq
      simp at heq
  · exact applyF_mono _ _ _ _ _

theorem noModelBranch_mono (ts_local line : String) (st : AggSt) :
    MatrixMono st (noModelBranch ts_local line st) := by
  simp only [noModelBranch]
  split
  · exact matrixMono_of_eq st _ rfl
  · split
    · exact matrixMono_of_eq st _ rfl
    · exact matrixMono_refl st

theorem processLine_mono (cfg : Cfg) (st : AggSt) (line : String) :
    MatrixMono st (processLine cfg st line) := by
  simp only [processLine]
  split
  · exact matrixMono_refl st
  · split
    · exact amfBranch_mono _ _ _ _ _
    · split
      · exact nkBranch_mono _ _ _ _
      · split
        · exact cpBranch_mono _ _ _ _ _
        · split
          · exact umBranch_mono _ _ _
          · split
            · exact foldl_mono _ (fun st1 m => midBranch_mono _ _ _ _ _ _ _) _ st
            · split
              · exact noModelBranch_mono _ _ _
              · exact foldl_mono _ (fun st1 m => midBranch_mono _ _ _ _ _ _ _) _ st

/-- **C10** (confirmed): throughout an aggregation pass, the severity of
every model row is monotonically non-decreasing in the red > yellow > green
rank order: from any intermediate state, processing any further lines never
deletes a row and never lowers its severity rank (inactive incidents touch
only the diagnosis, active incidents combine with worse-of, and unknown
models create fresh rows). -/
theorem severity_monotone (cfg : Cfg) (st : AggSt) (lines : List String)
    (mid : String) (row : Row) (h : dictFind st.matrix mid = some row) :
    ∃ row', dictFind (lines.foldl (processLine cfg) st).matrix mid = some row' ∧
      statusOrder row.Status ≤ statusOrder row'.Status :=
  foldl_mono (processLine cfg) (fun st1 l => processLine_mono cfg st1 l) lines st mid row h

/-- **C10** (witness): a yellow row is not downgraded by a following red
quota line for the same model. -/
theorem severity_monotone_witness :
    ∃ row', dictFind ((["2026-02-07T02:28:57Z provider=acme model=gpt-x 429 reset after 3h"].foldl
        (processLine ⟨[⟨"acme/gpt-x", "acme", "gpt-x"⟩], fun _ => "10:28", 1770431400000000,
          240, 30⟩)
        ⟨[("acme/gpt-x", ⟨"acme", "gpt-x", "🟡 429 限流", "429 限流（可能是 RPM/并发）。"⟩)],
          [], []⟩).matrix) "acme/gpt-x" = some row' ∧
      statusOrder "🟡 429 限流" ≤ statusOrder row'.Status :=
  severity_monotone ⟨[⟨"acme/gpt-x", "acme", "gpt-x"⟩], fun _ => "10:28", 1770431400000000,
      240, 30⟩
    ⟨[("acme/gpt-x", ⟨"acme", "gpt-x", "🟡 429 限流", "429 限流（可能是 RPM/并发）。"⟩)], [], []⟩
    ["2026-02-07T02:28:57Z provider=acme model=gpt-x 429 reset after 3h"]
    "acme/gpt-x" ⟨"acme", "gpt-x", "🟡 429 限流", "429 限流（可能是 RPM/并发）。"⟩ (by decide)

end HealthFetcher
